import Mathlib

/-!
Verification development for the Cosmo single-pass compiler (`src/cparse.c`).

The compiler is embedded shallowly as a fueled state machine over a stream of
tokens.  The lexer (`clex.c`) is not part of the repository snapshot, so a
source string is represented by the token list it lexes to; the parser pulls
tokens from that list exactly where the C code calls `cosmoL_scanToken`.
Machine integers are modelled as `Int`/`Nat` with explicit `% 2^w` where the C
code truncates.  The numeric values of opcodes are a model choice
(`cchunk.h` is not in the snapshot): every claim below depends only on which
opcode is emitted, never on its numeric encoding.
-/

/-- Token kinds, as used by `cparse.c` (the `CTokenType` enumeration of
`clex.h`; the names are exactly the ones the parser references). -/
inductive CTokenType : Type where
  | TOKEN_LEFT_PAREN | TOKEN_RIGHT_PAREN | TOKEN_LEFT_BRACE | TOKEN_RIGHT_BRACE
  | TOKEN_LEFT_BRACKET | TOKEN_RIGHT_BRACKET | TOKEN_COMMA | TOKEN_COLON
  | TOKEN_DOT | TOKEN_DOT_DOT | TOKEN_DOT_DOT_DOT
  | TOKEN_MINUS | TOKEN_MINUS_MINUS | TOKEN_PLUS | TOKEN_PLUS_PLUS
  | TOKEN_SLASH | TOKEN_STAR | TOKEN_PERCENT | TOKEN_POUND
  | TOKEN_EOS | TOKEN_BANG | TOKEN_BANG_EQUAL | TOKEN_EQUAL | TOKEN_EQUAL_EQUAL
  | TOKEN_GREATER | TOKEN_GREATER_EQUAL | TOKEN_LESS | TOKEN_LESS_EQUAL
  | TOKEN_IDENTIFIER | TOKEN_STRING | TOKEN_NUMBER
  | TOKEN_NIL | TOKEN_TRUE | TOKEN_FALSE
  | TOKEN_AND | TOKEN_BREAK | TOKEN_CONTINUE | TOKEN_DO | TOKEN_ELSE
  | TOKEN_ELSEIF | TOKEN_END | TOKEN_FOR | TOKEN_FUNCTION | TOKEN_PROTO
  | TOKEN_IF | TOKEN_IN | TOKEN_LOCAL | TOKEN_NOT | TOKEN_OR | TOKEN_RETURN
  | TOKEN_THEN | TOKEN_WHILE | TOKEN_ERROR | TOKEN_VAR | TOKEN_EOF
deriving DecidableEq

/-- A `CToken`: the C struct stores a kind, a pointer/length into the source
(here: the lexeme text) and a line number. -/
structure CToken : Type where
  ttype : CTokenType
  text : String
  line : Int
deriving DecidableEq

/-- The token the lexer produces forever once the source is exhausted. -/
def eofToken : CToken := { ttype := .TOKEN_EOF, text := "", line := 0 }

mutual
/-- A `CValue` as stored in a chunk's constant pool.  Numbers appear either as
the source text of a literal (`strtod` of `number()` is modelled by keeping
the literal text) or as the small integer deltas `increment` stores via
`cosmoV_newNumber`.  Strings are interned per state in C, so string equality
is textual equality here. -/
inductive CValue : Type where
  | nil : CValue
  | num : Int → CValue
  | numLit : String → CValue
  | str : String → CValue
  | ofFunc : CObjFunction → CValue

/-- A `CObjFunction`: its chunk (flat bytecode buffer, parallel line table and
constant pool, folded in because Lean mutual blocks cannot nest a structure),
arity, upvalue count, variadic flag, display name and module name. -/
inductive CObjFunction : Type where
  | mk : (buf : List Int) → (lineBuf : List Int) → (consts : List CValue) →
      (args : Nat) → (upvals : Nat) → (variadic : Bool) →
      (name : String) → (module : String) → CObjFunction
end

def CObjFunction.buf : CObjFunction → List Int
  | .mk b _ _ _ _ _ _ _ => b

def CObjFunction.lineBuf : CObjFunction → List Int
  | .mk _ l _ _ _ _ _ _ => l

def CObjFunction.consts : CObjFunction → List CValue
  | .mk _ _ c _ _ _ _ _ => c

def CObjFunction.args : CObjFunction → Nat
  | .mk _ _ _ a _ _ _ _ => a

def CObjFunction.upvals : CObjFunction → Nat
  | .mk _ _ _ _ u _ _ _ => u

def CObjFunction.variadic : CObjFunction → Bool
  | .mk _ _ _ _ _ v _ _ => v

def CObjFunction.name : CObjFunction → String
  | .mk _ _ _ _ _ _ n _ => n

def CObjFunction.withBuf (f : CObjFunction) (b : List Int) : CObjFunction :=
  match f with
  | .mk _ l c a u v n m => .mk b l c a u v n m

def CObjFunction.withLineBuf (f : CObjFunction) (l : List Int) : CObjFunction :=
  match f with
  | .mk b _ c a u v n m => .mk b l c a u v n m

def CObjFunction.withConsts (f : CObjFunction) (c : List CValue) : CObjFunction :=
  match f with
  | .mk b l _ a u v n m => .mk b l c a u v n m

def CObjFunction.withArgs (f : CObjFunction) (a : Nat) : CObjFunction :=
  match f with
  | .mk b l c _ u v n m => .mk b l c a u v n m

def CObjFunction.withUpvals (f : CObjFunction) (u : Nat) : CObjFunction :=
  match f with
  | .mk b l c a _ v n m => .mk b l c a u v n m

def CObjFunction.withVariadic (f : CObjFunction) (v : Bool) : CObjFunction :=
  match f with
  | .mk b l c a u _ n m => .mk b l c a u v n m

/-- `cosmoO_newFunction`: a fresh function object with an empty chunk. -/
def newFunction (name module : String) : CObjFunction :=
  .mk [] [] [] 0 0 false name module

/-- `UNNAMEDCHUNK` (defined in a header outside the snapshot): the display
name given to a script-level chunk.  Modelled from the spec: the module
system only names the current chunk; the exact literal is irrelevant to
every claim. -/
def UNNAMEDCHUNK : String := "main"

/-- A `Local` of the per-function compiler state. -/
structure Local : Type where
  name : CToken
  depth : Int
  isCaptured : Bool
deriving DecidableEq

/-- fallback used when reading the locals array at an index that was never
written (the C array is uninitialised there; no claim reads such a slot). -/
def defaultLocal : Local := { name := eofToken, depth := -1, isCaptured := false }

/-- An `Upvalue` descriptor `{index, isLocal}`. -/
structure Upvalue : Type where
  index : Nat
  isLocal : Bool
deriving DecidableEq

/-- `Upvalue upvalues[256]`: the capacity of the per-function upvalue array. -/
def upvalueCapacity : Nat := 256

/-- `LoopState`: the break-patch list, the scope at loop entry (−1 = no
loop) and the bytecode offset of the loop top.  `breakCount` is the length
of `breaks`; the malloc capacity bookkeeping has no observable effect. -/
structure LoopState : Type where
  breaks : List Nat
  scope : Int
  startBytecode : Nat
deriving DecidableEq

/-- `FunctionType`. -/
inductive FunctionType : Type where
  | FTYPE_FUNCTION | FTYPE_METHOD | FTYPE_SCRIPT
deriving DecidableEq

/-- One `CCompilerState` minus its `enclosing` pointer: the chain of
enclosing compilers is kept as a list in the parse state.  `locals` is the
backing store of the C array `locals[256]` (entries survive a `localCount`
decrement, as `breakStatement`/`continueStatement` rely on); `upvalues`
backs `upvalues[256]` whose live prefix has length `function.upvals`. -/
structure Frame : Type where
  locals : List Local
  upvalues : List Upvalue
  loop : LoopState
  function : CObjFunction
  ftype : FunctionType
  localCount : Nat
  scopeDepth : Int
  pushedValues : Int
  expectedValues : Int

/-- placeholder frame installed when the outermost compiler is popped
(`pstate->compiler = NULL` in C); never read afterwards. -/
def dummyFrame : Frame :=
  { locals := [], upvalues := [], loop := { breaks := [], scope := -1, startBytecode := 0 },
    function := newFunction "" "", ftype := .FTYPE_SCRIPT, localCount := 0,
    scopeDepth := 0, pushedValues := 0, expectedValues := 0 }

/-- `CParseState`.  `tokens` is the not-yet-scanned remainder of the lexer
stream; `errors` records the diagnostic messages `errorAt` prints;
`outOfFuel` is a model artefact marking that the step budget ran out, and
`nullCall` marks the one unreachable-by-intent path where C would call a
NULL `ParseFunc` pointer. -/
structure ParseState : Type where
  tokens : List CToken
  current : CToken
  previous : CToken
  hadError : Bool
  panicMode : Bool
  errors : List String
  module : String
  compiler : Frame
  enclosing : List Frame
  outOfFuel : Bool
  nullCall : Bool

-- ==================== opcodes (numeric values are a model choice) ====================

def OP_NOP : Int := 0
def OP_LOADCONST : Int := 1
def OP_SETGLOBAL : Int := 2
def OP_GETGLOBAL : Int := 3
def OP_SETLOCAL : Int := 4
def OP_GETLOCAL : Int := 5
def OP_GETUPVAL : Int := 6
def OP_SETUPVAL : Int := 7
def OP_PEJMP : Int := 8
def OP_EJMP : Int := 9
def OP_JMP : Int := 10
def OP_JMPBACK : Int := 11
def OP_POP : Int := 12
def OP_CALL : Int := 13
def OP_CLOSURE : Int := 14
def OP_CLOSE : Int := 15
def OP_NEWDICT : Int := 16
def OP_INDEX : Int := 17
def OP_NEWINDEX : Int := 18
def OP_NEWOBJECT : Int := 19
def OP_SETOBJECT : Int := 20
def OP_GETOBJECT : Int := 21
def OP_INVOKE : Int := 22
def OP_ITER : Int := 23
def OP_NEXT : Int := 24
def OP_ADD : Int := 25
def OP_SUB : Int := 26
def OP_MULT : Int := 27
def OP_DIV : Int := 28
def OP_MOD : Int := 29
def OP_NOT : Int := 30
def OP_EQUAL : Int := 31
def OP_GREATER : Int := 32
def OP_LESS : Int := 33
def OP_GREATER_EQUAL : Int := 34
def OP_LESS_EQUAL : Int := 35
def OP_NEGATE : Int := 36
def OP_COUNT : Int := 37
def OP_CONCAT : Int := 38
def OP_INCLOCAL : Int := 39
def OP_INCGLOBAL : Int := 40
def OP_INCUPVAL : Int := 41
def OP_INCINDEX : Int := 42
def OP_INCOBJECT : Int := 43
def OP_TRUE : Int := 44
def OP_FALSE : Int := 45
def OP_NIL : Int := 46
def OP_RETURN : Int := 47

-- ==================== front end / talk to lexer ====================

/-- `errorAt`: once `hadError` is set every further diagnostic is swallowed
by the early `return`; otherwise the message is printed (recorded in
`errors`; the `[line %d] Objection at ...` dressing is elided) and both
`hadError` and `panic` are raised. -/
def errorAt (s : ParseState) (_tok : CToken) (msg : String) : ParseState :=
  if s.hadError then s
  else { s with errors := s.errors ++ [msg], hadError := true, panicMode := true }

def errorAtCurrent (s : ParseState) (msg : String) : ParseState :=
  errorAt s s.current msg

def errorP (s : ParseState) (msg : String) : ParseState :=
  errorAt s s.previous msg

/-- `advance`: shift `current` into `previous`, scan the next token (the
lexer yields `TOKEN_EOF` forever at end of stream), and report a lexing
error token immediately. -/
def advance (s : ParseState) : ParseState :=
  let s := { s with previous := s.current,
                    current := s.tokens.headD eofToken,
                    tokens := s.tokens.tail }
  if s.current.ttype = .TOKEN_ERROR then errorAtCurrent s s.current.text else s

def check (s : ParseState) (t : CTokenType) : Bool :=
  s.current.ttype = t

/-- `consume`: advance when the current token matches, otherwise error. -/
def consume (s : ParseState) (t : CTokenType) (msg : String) : ParseState :=
  if s.current.ttype = t then advance s else errorAtCurrent s msg

/-- `match`: test-and-consume.  Returns whether it matched together with the
resulting state (`match` is a Lean keyword, hence the name). -/
def matchT (s : ParseState) (t : CTokenType) : Bool × ParseState :=
  if check s t then (true, advance s) else (false, s)

def identifiersEqual (a b : CToken) : Bool :=
  a.text == b.text

def valuePushed (s : ParseState) (values : Int) : ParseState :=
  { s with compiler := { s.compiler with pushedValues := s.compiler.pushedValues + values } }

def valuePopped (s : ParseState) (values : Int) : ParseState :=
  { s with compiler := { s.compiler with pushedValues := s.compiler.pushedValues - values } }

def blockFollow (token : CToken) : Bool :=
  match token.ttype with
  | .TOKEN_END | .TOKEN_ELSE | .TOKEN_ELSEIF | .TOKEN_EOS => true
  | _ => false

/-- model artefact: the fuel budget ran out mid-parse.  Marked as a (fatal)
error so that no theorem conditioned on an error-free parse sees a
truncated run. -/
def noFuel (s : ParseState) : ParseState :=
  { s with outOfFuel := true, hadError := true }

-- ==================== write to chunk ====================

def getChunkCount (s : ParseState) : Nat :=
  s.compiler.function.buf.length

def modifyFunction (s : ParseState) (f : CObjFunction → CObjFunction) : ParseState :=
  { s with compiler := { s.compiler with function := f s.compiler.function } }

/-- `writeu8Chunk`: append one byte (an `INSTRUCTION` is a `uint8_t`, hence
the `% 256`) and its line-table entry. -/
def writeu8Chunk (f : CObjFunction) (i : Int) (line : Int) : CObjFunction :=
  (f.withBuf (f.buf ++ [i % 256])).withLineBuf (f.lineBuf ++ [line])

/-- `writeu16Chunk`: a `uint16_t` operand, two bytes little-endian. -/
def writeu16Chunk (f : CObjFunction) (i : Int) (line : Int) : CObjFunction :=
  let v := i % 65536
  ((f.withBuf (f.buf ++ [v % 256, v / 256])).withLineBuf (f.lineBuf ++ [line, line]))

def writeu8 (s : ParseState) (i : Int) : ParseState :=
  modifyFunction s (fun f => writeu8Chunk f i s.previous.line)

def writeu16 (s : ParseState) (i : Int) : ParseState :=
  modifyFunction s (fun f => writeu16Chunk f i s.previous.line)

/-- like `writeu8` but at an explicitly cached line (`unary`/`binary` pass
`cachedLine` straight to `writeu8Chunk`). -/
def writeu8At (s : ParseState) (i : Int) (line : Int) : ParseState :=
  modifyFunction s (fun f => writeu8Chunk f i line)

/-- `addConstant` lives in `cchunk.c`, which is not in the snapshot.
Modelled from the spec: the chunk carries a constant pool that is a
sequence of values, and adding a constant appends it and yields its index
(the spec's "de-duplicated only opportunistically" is modelled as no
de-duplication).  Returns the new index and the grown pool. -/
def addConstant (consts : List CValue) (val : CValue) : Nat × List CValue :=
  (consts.length, consts ++ [val])

/-- `makeConstant`: add a constant, erroring (and returning index 0) when
the index no longer fits in a `uint16_t`. -/
def makeConstant (s : ParseState) (val : CValue) : Int × ParseState :=
  let (indx, consts) := addConstant s.compiler.function.consts val
  let s := modifyFunction s (fun f => f.withConsts consts)
  if (indx : Int) > 65535 then
    (0, errorP s "UInt overflow! Too many constants in one chunk!")
  else
    ((indx : Int), s)

def writeConstant (s : ParseState) (val : CValue) : ParseState :=
  let s := writeu8 s OP_LOADCONST
  let (k, s) := makeConstant s val
  let s := writeu16 s k
  valuePushed s 1

/-- `writeJmp`: opcode plus a `0xFFFF` placeholder; returns the offset of
the placeholder for later patching. -/
def writeJmp (s : ParseState) (i : Int) : Nat × ParseState :=
  let s := writeu8 s i
  let s := writeu16 s 0xFFFF
  (getChunkCount s - 2, s)

def writePop (s : ParseState) (times : Int) : ParseState :=
  let s := writeu8 s OP_POP
  writeu8 s times

def writeJmpBack (s : ParseState) (location : Nat) : ParseState :=
  let jmp : Int := ((getChunkCount s : Int) - (location : Int)) + 3
  let s := if jmp > 65535 then errorP s "UInt overflow! Too much code to jump!" else s
  let s := writeu8 s OP_JMPBACK
  writeu16 s jmp

/-- `patchJmp`: `jump` is computed in an `unsigned int` (hence the explicit
wrap at 2^32); the two bytes are memcpy'd over the placeholder even on
overflow. -/
def patchJmp (s : ParseState) (index : Nat) : ParseState :=
  let jump : Int := ((getChunkCount s : Int) - (index : Int) - 2) % 4294967296
  let s := if jump > 65535 then errorP s "UInt overflow! Too much code to jump!" else s
  modifyFunction s (fun f =>
    (f.withBuf ((f.buf.set index (jump % 256)).set (index + 1) (jump / 256 % 256))))

/-- `identifierConstant`: the identifier's text as an (interned) string
constant. -/
def identifierConstant (s : ParseState) (name : CToken) : Int × ParseState :=
  makeConstant s (CValue.str name.text)

/-- write into the backing store of a fixed C array: in-bounds indices
overwrite, the index one past the written region appends. -/
def arrWrite (l : List Local) (i : Nat) (x : Local) : List Local :=
  if i < l.length then l.set i x else l ++ [x]

def arrWriteUp (l : List Upvalue) (i : Nat) (x : Upvalue) : List Upvalue :=
  if i < l.length then l.set i x else l ++ [x]

/-- `addLocal`: guarded against more than 256 locals before writing. -/
def addLocal (s : ParseState) (name : CToken) : ParseState :=
  if s.compiler.localCount > 255 then
    errorP s "UInt overflow! Too many locals in scope!"
  else
    { s with compiler :=
      { s.compiler with
          locals := arrWrite s.compiler.locals s.compiler.localCount
            { name := name, depth := -1, isCaptured := false },
          localCount := s.compiler.localCount + 1 } }

/-- `addUpvalue`: scan the already-captured prefix for a duplicate, else
write the descriptor at index `function->upvals` — the C code has
`// TODO: throw error if upvals >= UINT8_MAX` and performs the write with
no bound check whatsoever.  Returns the index written/found. -/
def addUpvalue (ccstate : Frame) (indx : Nat) (isLocal : Bool) : Nat × Frame :=
  let upvals := ccstate.function.upvals
  match (ccstate.upvalues.take upvals).findIdx?
      (fun u => u.index = indx ∧ u.isLocal = isLocal) with
  | some i => (i, ccstate)
  | none =>
      (upvals,
        { ccstate with
            upvalues := arrWriteUp ccstate.upvalues upvals { index := indx, isLocal := isLocal },
            function := ccstate.function.withUpvals (upvals + 1) })

/-- the scan of `getLocal`: walk indices `count-1, ..., 0`, matching only
initialised locals (`depth != -1`). -/
def getLocalAux (locals : List Local) (name : CToken) : Nat → Option Nat
  | 0 => none
  | Nat.succ i =>
      let l := locals.getD i defaultLocal
      if l.depth ≠ -1 ∧ identifiersEqual name l.name then some i
      else getLocalAux locals name i

/-- `getLocal`: innermost (most recently declared) matching local, or none. -/
def getLocal (ccstate : Frame) (name : CToken) : Option Nat :=
  getLocalAux ccstate.locals name ccstate.localCount

/-- mark `locals[local].isCaptured = true` (done by `getUpvalue` on the
enclosing compiler before capturing). -/
def markCaptured (f : Frame) (localIdx : Nat) : Frame :=
  let l := f.locals.getD localIdx defaultLocal
  { f with locals := f.locals.set localIdx { l with isCaptured := true } }

/-- `getUpvalue` on the current compiler and its enclosing chain: a local of
the immediate enclosing compiler is marked captured and added with
`isLocal=true`; an upvalue resolved deeper in the chain is chained through
with `isLocal=false`.  The `uint8_t indx` parameter of `addUpvalue`
truncates the index (`% 256`).  Returns the upvalue index (or none) along
with the updated current frame and chain. -/
def getUpvalue (ccstate : Frame) (chain : List Frame) (name : CToken) :
    Option Nat × Frame × List Frame :=
  match chain with
  | [] => (none, ccstate, [])
  | e :: rest =>
      match getLocal e name with
      | some localIdx =>
          let e := markCaptured e localIdx
          let (i, ccstate) := addUpvalue ccstate (localIdx % 256) true
          (some i, ccstate, e :: rest)
      | none =>
          match getUpvalue e rest name with
          | (some upval, e, rest) =>
              let (i, ccstate) := addUpvalue ccstate (upval % 256) false
              (some i, ccstate, e :: rest)
          | (none, e, rest) => (none, ccstate, e :: rest)

def markInitialized (s : ParseState) (localIdx : Nat) : ParseState :=
  let l := s.compiler.locals.getD localIdx defaultLocal
  let l := { l with depth := s.compiler.scopeDepth }
  { s with compiler := { s.compiler with locals := s.compiler.locals.set localIdx l } }

/-- `alignStack`: pop the surplus above `alignment`, report a deficit, and
in every case reset `pushedValues` to `alignment`. -/
def alignStack (s : ParseState) (alignment : Int) : ParseState :=
  let s :=
    if s.compiler.pushedValues > alignment then
      writePop s (s.compiler.pushedValues - alignment)
    else if s.compiler.pushedValues < alignment then
      errorP s "Missing expression!"
    else s
  { s with compiler := { s.compiler with pushedValues := alignment } }

-- ==================== compiler state lifecycle ====================

/-- `initCompilerState`: push a fresh per-function compiler whose slot 0 is
reserved (holding the function itself, or the bound object of a method). -/
def initCompilerState (s : ParseState) (type : FunctionType) : ParseState :=
  let fname := if type ≠ .FTYPE_SCRIPT then s.previous.text else UNNAMEDCHUNK
  let fresh : Frame :=
    { locals := [{ name := { ttype := .TOKEN_IDENTIFIER, text := "", line := 0 },
                   depth := 0, isCaptured := false }],
      upvalues := [],
      loop := { breaks := [], scope := -1, startBytecode := 0 },
      function := newFunction fname s.module,
      ftype := type, localCount := 1, scopeDepth := 0,
      pushedValues := 0, expectedValues := 0 }
  { s with compiler := fresh, enclosing := s.compiler :: s.enclosing }

/-- `initParseState` (+ the initial `initCompilerState` with a NULL
enclosing): the root compiler for a script. -/
def initParseState (tokens : List CToken) (module : String) : ParseState :=
  let s : ParseState :=
    { tokens := tokens, current := eofToken, previous := eofToken,
      hadError := false, panicMode := false, errors := [], module := module,
      compiler := dummyFrame, enclosing := [], outOfFuel := false, nullCall := false }
  let s := initCompilerState s .FTYPE_SCRIPT
  { s with enclosing := [] }

/-- the walk of `popLocals`: scan locals above `toScope` from the top,
batching plain pops and closing captured ones; the counter argument is the
current `localCount` (the structural measure). -/
def popLocalsLoop : Nat → Int → Int → ParseState → Int × ParseState
  | 0, _, localsToPop, s => (localsToPop, s)
  | Nat.succ n, toScope, localsToPop, s =>
      if s.compiler.localCount > 0 ∧
         (s.compiler.locals.getD (s.compiler.localCount - 1) defaultLocal).depth > toScope then
        let l := s.compiler.locals.getD (s.compiler.localCount - 1) defaultLocal
        let dec : ParseState → ParseState := fun s =>
          { s with compiler := { s.compiler with localCount := s.compiler.localCount - 1 } }
        if l.isCaptured then
          let s := if localsToPop > 0 then writePop s localsToPop else s
          let s := writeu8 s OP_CLOSE
          popLocalsLoop n toScope 0 (dec s)
        else
          popLocalsLoop n toScope (localsToPop + 1) (dec s)
      else (localsToPop, s)

/-- `popLocals`: emit the pops/closes for every local above `toScope`
(silently skipped after an error). -/
def popLocals (s : ParseState) (toScope : Int) : ParseState :=
  if s.hadError then s
  else
    let (localsToPop, s) := popLocalsLoop s.compiler.localCount toScope 0 s
    if localsToPop > 0 then writePop s localsToPop else s

def beginScope (s : ParseState) : ParseState :=
  { s with compiler := { s.compiler with scopeDepth := s.compiler.scopeDepth + 1 } }

def endScope (s : ParseState) : ParseState :=
  let s := { s with compiler := { s.compiler with scopeDepth := s.compiler.scopeDepth - 1 } }
  popLocals s s.compiler.scopeDepth

/-- `startLoop`: record the scope, a fresh break list and the loop top. -/
def startLoop (s : ParseState) : ParseState :=
  { s with compiler := { s.compiler with loop :=
      { scope := s.compiler.scopeDepth, breaks := [], startBytecode := getChunkCount s } } }

/-- the patch-all-breaks walk of `endLoop`, from the last break down. -/
def endLoopAux (breaks : List Nat) (s : ParseState) : ParseState :=
  match breaks with
  | [] => s
  | b :: rest => endLoopAux rest (patchJmp s b)

/-- `endLoop`: patch every pending break (the array is then freed). -/
def endLoop (s : ParseState) : ParseState :=
  endLoopAux s.compiler.loop.breaks.reverse s

/-- `endCompiler`: pop remaining locals, terminate the body with
`OP_NIL; OP_RETURN 1`, and pop this compiler off the chain.  Returns the
finished function and the popped compiler frame (the C caller still holds
both). -/
def endCompiler (s : ParseState) : CObjFunction × Frame × ParseState :=
  let s := popLocals s s.compiler.scopeDepth
  let s := writeu8 s OP_NIL
  let s := writeu8 s OP_RETURN
  let s := writeu8 s 1
  let cached := s.compiler
  (cached.function, cached,
    { s with compiler := s.enclosing.headD dummyFrame, enclosing := s.enclosing.tail })

-- ==================== simple statements / helpers ====================

/-- `declareLocal`'s duplicate scan over `locals[0..localCount)`, stopping
at the first initialised local of an outer scope. -/
def declareLocalLoop (s : ParseState) (name : CToken) : Nat → Nat → ParseState
  | _, 0 => s
  | i, Nat.succ rem =>
      let l := s.compiler.locals.getD i defaultLocal
      if l.depth ≠ -1 ∧ s.compiler.scopeDepth > l.depth then s
      else
        let s' := if identifiersEqual name l.name then
            errorP s "There is already a local in scope with this name!" else s
        declareLocalLoop s' name (i + 1) rem

def declareLocal (s : ParseState) (forceLocal : Bool) : ParseState :=
  if s.compiler.scopeDepth = 0 ∧ ¬forceLocal then s
  else
    let name := s.previous
    let s := declareLocalLoop s name 0 s.compiler.localCount
    addLocal s name

/-- `parseVariable`: consume the identifier; a scoped or forced declaration
yields the new local slot, otherwise a global name constant. -/
def parseVariable (s : ParseState) (errorMessage : String) (forceLocal : Bool) :
    Int × ParseState :=
  let s := consume s .TOKEN_IDENTIFIER errorMessage
  let s := declareLocal s forceLocal
  if s.compiler.scopeDepth > 0 ∨ forceLocal then
    ((s.compiler.localCount - 1 : Nat), s)
  else identifierConstant s s.previous

/-- `defineVariable`: locals are just marked initialised (the value stays on
the stack); globals are stored with `OP_SETGLOBAL`.  Skipped entirely after
an error. -/
def defineVariable (s : ParseState) (global : Int) (forceLocal : Bool) : ParseState :=
  if s.hadError then s
  else if s.compiler.scopeDepth > 0 ∨ forceLocal then
    let s := markInitialized s global.toNat
    valuePopped s 1
  else
    let s := writeu8 s OP_SETGLOBAL
    let s := writeu16 s global
    valuePopped s 1

/-- `breakStatement`: outside a loop this is an error; otherwise pop the
loop-scoped locals (restoring `localCount`) and record a forward jump to be
patched by `endLoop`. -/
def breakStatement (s : ParseState) : ParseState :=
  if s.compiler.loop.scope = -1 then
    errorP s "break cannot be used outside of a loop body!"
  else
    let savedLocals := s.compiler.localCount
    let s := popLocals s s.compiler.loop.scope
    let s := { s with compiler := { s.compiler with localCount := savedLocals } }
    let (j, s) := writeJmp s OP_JMP
    { s with compiler := { s.compiler with loop :=
        { s.compiler.loop with breaks := s.compiler.loop.breaks ++ [j] } } }

/-- `continueStatement`: pop the loop-scoped locals (restoring
`localCount`) and jump back to the loop top. -/
def continueStatement (s : ParseState) : ParseState :=
  if s.compiler.loop.scope = -1 then
    errorP s "continue cannot be used outside of a loop body!"
  else
    let savedLocals := s.compiler.localCount
    let s := popLocals s s.compiler.loop.scope
    let s := { s with compiler := { s.compiler with localCount := savedLocals } }
    writeJmpBack s s.compiler.loop.startBytecode

/-- the skip loop of `synchronize`: advance until just past a `;` or until
EOF. -/
def syncLoop : Nat → ParseState → ParseState
  | 0, s => noFuel s
  | Nat.succ fuel, s =>
      if s.current.ttype = .TOKEN_EOF then s
      else if s.previous.ttype = .TOKEN_EOS then s
      else syncLoop fuel (advance s)

/-- `synchronize`: clear panic and skip to the next statement boundary. -/
def synchronize (fuel : Nat) (s : ParseState) : ParseState :=
  syncLoop fuel { s with panicMode := false }

-- ==================== leaf parse functions ====================

/-- `number`: `strtod` of the literal text, pushed as a constant. -/
def number (s : ParseState) (_canAssign : Bool) : ParseState :=
  writeConstant s (CValue.numLit s.previous.text)

/-- `string`: the (taken) string object pushed as a constant. -/
def stringFn (s : ParseState) (_canAssign : Bool) : ParseState :=
  writeConstant s (CValue.str s.previous.text)

/-- `literal`: `true`/`false`/`nil`. -/
def literal (s : ParseState) (_canAssign : Bool) : ParseState :=
  let s :=
    match s.previous.ttype with
    | .TOKEN_TRUE => writeu8 s OP_TRUE
    | .TOKEN_FALSE => writeu8 s OP_FALSE
    | .TOKEN_NIL => writeu8 s OP_NIL
    | _ => s
  valuePushed s 1

/-- `_etterOP`: globals take a `u16` operand, locals/upvalues a `u8`. -/
def _etterOP (s : ParseState) (op : Int) (arg : Int) : ParseState :=
  let s := writeu8 s op
  if op = OP_GETGLOBAL ∨ op = OP_SETGLOBAL then writeu16 s arg else writeu8 s arg

/-- the resolution cascade at the top of `namedVariable` (`cparse.c`
465-483): locals of the current function first, then the enclosing chain as
an upvalue, else a global name constant.  Returns `(opGet, opSet, opInc)`,
the operand, and the updated state. -/
def resolveName (s : ParseState) (name : CToken) : (Int × Int × Int) × Int × ParseState :=
  match getLocal s.compiler name with
  | some i => ((OP_GETLOCAL, OP_SETLOCAL, OP_INCLOCAL), (i : Int), s)
  | none =>
      match getUpvalue s.compiler s.enclosing name with
      | (some i, cur, encl) =>
          ((OP_GETUPVAL, OP_SETUPVAL, OP_INCUPVAL), (i : Int),
            { s with compiler := cur, enclosing := encl })
      | (none, cur, encl) =>
          let s := { s with compiler := cur, enclosing := encl }
          let (arg, s) := identifierConstant s name
          ((OP_GETGLOBAL, OP_SETGLOBAL, OP_INCGLOBAL), arg, s)

-- ==================== precedence and rule table ====================

def PREC_NONE : Int := 0
def PREC_ASSIGNMENT : Int := 1
def PREC_CONCAT : Int := 2
def PREC_OR : Int := 3
def PREC_AND : Int := 4
def PREC_EQUALITY : Int := 5
def PREC_COMPARISON : Int := 6
def PREC_TERM : Int := 7
def PREC_FACTOR : Int := 8
def PREC_UNARY : Int := 9
def PREC_CALL : Int := 10
def PREC_PRIMARY : Int := 11

/-- tags naming the `ParseFunc`s that can sit in a rule's first slot
(a defunctionalised function pointer; dispatched in the mutual block). -/
inductive PreFn : Type where
  | groupP | unaryP | predecrementP | preincrementP | literalP
  | stringP | numberP | variableP | objectP | anonFunctionP
deriving DecidableEq

/-- tags for the second (binary-operator) slot. -/
inductive InFn : Type where
  | callI | indexI | dotI | concatI | binaryI | andI | orI
deriving DecidableEq

structure ParseRule : Type where
  preRule : Option PreFn
  inRule : Option InFn
  level : Int

/-- `ruleTable`, indexed by token type. -/
def getRule (t : CTokenType) : ParseRule :=
  match t with
  | .TOKEN_LEFT_PAREN => ⟨some .groupP, some .callI, PREC_CALL⟩
  | .TOKEN_LEFT_BRACE => ⟨some .objectP, none, PREC_NONE⟩
  | .TOKEN_LEFT_BRACKET => ⟨none, some .indexI, PREC_CALL⟩
  | .TOKEN_DOT => ⟨none, some .dotI, PREC_CALL⟩
  | .TOKEN_DOT_DOT => ⟨none, some .concatI, PREC_CONCAT⟩
  | .TOKEN_MINUS => ⟨some .unaryP, some .binaryI, PREC_TERM⟩
  | .TOKEN_MINUS_MINUS => ⟨some .predecrementP, none, PREC_TERM⟩
  | .TOKEN_PLUS => ⟨none, some .binaryI, PREC_TERM⟩
  | .TOKEN_PLUS_PLUS => ⟨some .preincrementP, none, PREC_TERM⟩
  | .TOKEN_SLASH => ⟨none, some .binaryI, PREC_FACTOR⟩
  | .TOKEN_STAR => ⟨none, some .binaryI, PREC_FACTOR⟩
  | .TOKEN_PERCENT => ⟨none, some .binaryI, PREC_FACTOR⟩
  | .TOKEN_POUND => ⟨some .unaryP, none, PREC_NONE⟩
  | .TOKEN_BANG => ⟨some .unaryP, none, PREC_NONE⟩
  | .TOKEN_BANG_EQUAL => ⟨none, some .binaryI, PREC_EQUALITY⟩
  | .TOKEN_EQUAL_EQUAL => ⟨none, some .binaryI, PREC_EQUALITY⟩
  | .TOKEN_GREATER => ⟨none, some .binaryI, PREC_COMPARISON⟩
  | .TOKEN_GREATER_EQUAL => ⟨none, some .binaryI, PREC_COMPARISON⟩
  | .TOKEN_LESS => ⟨none, some .binaryI, PREC_COMPARISON⟩
  | .TOKEN_LESS_EQUAL => ⟨none, some .binaryI, PREC_COMPARISON⟩
  | .TOKEN_IDENTIFIER => ⟨some .variableP, none, PREC_NONE⟩
  | .TOKEN_STRING => ⟨some .stringP, none, PREC_NONE⟩
  | .TOKEN_NUMBER => ⟨some .numberP, none, PREC_NONE⟩
  | .TOKEN_NIL => ⟨some .literalP, none, PREC_NONE⟩
  | .TOKEN_TRUE => ⟨some .literalP, none, PREC_NONE⟩
  | .TOKEN_FALSE => ⟨some .literalP, none, PREC_NONE⟩
  | .TOKEN_AND => ⟨none, some .andI, PREC_AND⟩
  | .TOKEN_FUNCTION => ⟨some .anonFunctionP, none, PREC_NONE⟩
  | .TOKEN_OR => ⟨none, some .orI, PREC_OR⟩
  | _ => ⟨none, none, PREC_NONE⟩

/-- the nil-padding loop at the end of `varDeclaration`'s assignment branch
(`while (expectedValues-- > 0) { valuePushed(1); writeu8(OP_NIL); }`). -/
def nilPadAux : Nat → ParseState → ParseState
  | 0, s => s
  | Nat.succ n, s => nilPadAux n (writeu8 (valuePushed s 1) OP_NIL)

def varDeclNilPad (expectedValues : Int) (s : ParseState) : ParseState :=
  nilPadAux expectedValues.toNat s

/-- the upvalue-directive loop after `OP_CLOSURE` in `function()`: one
`(GETLOCAL|GETUPVAL, index)` pair per upvalue of the finished function. -/
def closureUpvalsLoop (comp : Frame) : Nat → Nat → ParseState → ParseState
  | _, 0, s => s
  | i, Nat.succ rem, s =>
      let u := comp.upvalues.getD i { index := 0, isLocal := false }
      let s := writeu8 s (if u.isLocal then OP_GETLOCAL else OP_GETUPVAL)
      let s := writeu8 s (u.index : Int)
      closureUpvalsLoop comp (i + 1) rem s

-- ==================== the Pratt parser (mutual, fueled) ====================

mutual

/-- `parsePrecedence`: advance, run the prefix rule (silently nothing when
the token has none), then fold infix rules of at least the given level, and
finally flag a stray `=`. -/
def parsePrecedence : Nat → Int → ParseState → ParseState
  | 0, _, s => noFuel s
  | Nat.succ fuel, prec, s =>
    let s := advance s
    match (getRule s.previous.ttype).preRule with
    | none => s
    | some p =>
      let canAssign : Bool := decide (prec ≤ PREC_ASSIGNMENT)
      let s := runPreFn fuel p canAssign s
      let s := parsePrecLoop fuel prec canAssign s
      if canAssign then
        let (m, s) := matchT s .TOKEN_EQUAL
        if m then errorP s "Invalid assignment!" else s
      else s

/-- the `while (prec <= getRule(current)->level)` loop of
`parsePrecedence`.  A table entry with a level but no infix function makes
C call a NULL pointer; that unreachable-by-intent path sets `nullCall`. -/
def parsePrecLoop : Nat → Int → Bool → ParseState → ParseState
  | 0, _, _, s => noFuel s
  | Nat.succ fuel, prec, canAssign, s =>
    if prec ≤ (getRule s.current.ttype).level then
      let s := advance s
      match (getRule s.previous.ttype).inRule with
      | some i => parsePrecLoop fuel prec canAssign (runInFn fuel i canAssign s)
      | none => { s with nullCall := true, hadError := true }
    else s

/-- dispatch a prefix `ParseFunc` pointer. -/
def runPreFn : Nat → PreFn → Bool → ParseState → ParseState
  | 0, _, _, s => noFuel s
  | Nat.succ fuel, p, canAssign, s =>
    match p with
    | .groupP => group fuel canAssign s
    | .unaryP => unary fuel canAssign s
    | .predecrementP => predecrement fuel canAssign s
    | .preincrementP => preincrement fuel canAssign s
    | .literalP => literal s canAssign
    | .stringP => stringFn s canAssign
    | .numberP => number s canAssign
    | .variableP => variableFn fuel canAssign s
    | .objectP => objectFn fuel canAssign s
    | .anonFunctionP => anonFunction fuel canAssign s

/-- dispatch an infix `ParseFunc` pointer. -/
def runInFn : Nat → InFn → Bool → ParseState → ParseState
  | 0, _, _, s => noFuel s
  | Nat.succ fuel, i, canAssign, s =>
    match i with
    | .callI => callFn fuel canAssign s
    | .indexI => indexFn fuel canAssign s
    | .dotI => dotFn fuel canAssign s
    | .concatI => concatFn fuel canAssign s
    | .binaryI => binary fuel canAssign s
    | .andI => andFn fuel canAssign s
    | .orI => orFn fuel canAssign s

/-- `unary`. -/
def unary : Nat → Bool → ParseState → ParseState
  | 0, _, s => noFuel s
  | Nat.succ fuel, _canAssign, s =>
    let type := s.previous.ttype
    let cachedLine := s.previous.line
    let s := parsePrecedence fuel PREC_UNARY s
    match type with
    | .TOKEN_MINUS => writeu8At s OP_NEGATE cachedLine
    | .TOKEN_BANG => writeu8At s OP_NOT cachedLine
    | .TOKEN_POUND => writeu8At s OP_COUNT cachedLine
    | _ => errorP s "Unexpected unary operator!"

/-- `binary`: parse the right operand one level tighter, emit the operator,
net one value popped. -/
def binary : Nat → Bool → ParseState → ParseState
  | 0, _, s => noFuel s
  | Nat.succ fuel, _canAssign, s =>
    let type := s.previous.ttype
    let cachedLine := s.previous.line
    let s := parsePrecedence fuel ((getRule type).level + 1) s
    let s :=
      match type with
      | .TOKEN_PLUS => writeu8At s OP_ADD cachedLine
      | .TOKEN_MINUS => writeu8At s OP_SUB cachedLine
      | .TOKEN_STAR => writeu8At s OP_MULT cachedLine
      | .TOKEN_SLASH => writeu8At s OP_DIV cachedLine
      | .TOKEN_PERCENT => writeu8At s OP_MOD cachedLine
      | .TOKEN_EQUAL_EQUAL => writeu8At s OP_EQUAL cachedLine
      | .TOKEN_GREATER => writeu8At s OP_GREATER cachedLine
      | .TOKEN_LESS => writeu8At s OP_LESS cachedLine
      | .TOKEN_GREATER_EQUAL => writeu8At s OP_GREATER_EQUAL cachedLine
      | .TOKEN_LESS_EQUAL => writeu8At s OP_LESS_EQUAL cachedLine
      | .TOKEN_BANG_EQUAL => writeu8At (writeu8At s OP_EQUAL cachedLine) OP_NOT cachedLine
      | _ => errorP s "Unexpected operator!"
    valuePopped s 1

/-- `group`: a parenthesised single-value expression. -/
def group : Nat → Bool → ParseState → ParseState
  | 0, _, s => noFuel s
  | Nat.succ fuel, _canAssign, s =>
    let (_, s) := expression fuel 1 true s
    consume s .TOKEN_RIGHT_PAREN "Expected )"

/-- `namedVariable`: resolve, then assignment / `++` / `--` / plain get. -/
def namedVariable : Nat → CToken → Bool → Bool → ParseState → ParseState
  | 0, _, _, _, s => noFuel s
  | Nat.succ fuel, name, canAssign, canIncrement, s =>
    let (ops, arg, s) := resolveName s name
    let (mEq, s) := if canAssign then matchT s .TOKEN_EQUAL else (false, s)
    if mEq then
      let (_, s) := expression fuel 1 true s
      valuePopped (_etterOP s ops.2.1 arg) 1
    else
      let (mPP, s) := if canIncrement then matchT s .TOKEN_PLUS_PLUS else (false, s)
      if mPP then
        let s := writeu8 s ops.2.2
        let s := writeu8 s (128 + 1)
        let s := if ops.2.2 = OP_INCGLOBAL then writeu16 s arg else writeu8 s arg
        valuePushed s 1
      else
        let (mMM, s) := if canIncrement then matchT s .TOKEN_MINUS_MINUS else (false, s)
        if mMM then
          let s := writeu8 s ops.2.2
          let s := writeu8 s (128 - 1)
          let s := if ops.2.2 = OP_INCGLOBAL then writeu16 s arg else writeu8 s arg
          valuePushed s 1
        else
          valuePushed (_etterOP s ops.1 arg) 1

/-- `and_`: peek-jump over the right operand. -/
def andFn : Nat → Bool → ParseState → ParseState
  | 0, _, s => noFuel s
  | Nat.succ fuel, _canAssign, s =>
    let (jump, s) := writeJmp s OP_EJMP
    let s := writePop s 1
    let s := parsePrecedence fuel PREC_AND s
    patchJmp s jump

/-- `or_`. -/
def orFn : Nat → Bool → ParseState → ParseState
  | 0, _, s => noFuel s
  | Nat.succ fuel, _canAssign, s =>
    let (elseJump, s) := writeJmp s OP_EJMP
    let (endJump, s) := writeJmp s OP_JMP
    let s := patchJmp s elseJump
    let s := writePop s 1
    let s := parsePrecedence fuel PREC_OR s
    patchJmp s endJump

/-- `anonFunction`. -/
def anonFunction : Nat → Bool → ParseState → ParseState
  | 0, _, s => noFuel s
  | Nat.succ fuel, _canAssign, s => functionFn fuel .FTYPE_FUNCTION s

/-- `variable`. -/
def variableFn : Nat → Bool → ParseState → ParseState
  | 0, _, s => noFuel s
  | Nat.succ fuel, canAssign, s => namedVariable fuel s.previous canAssign true s

/-- the `..` chain of `concat`. -/
def concatLoop : Nat → CTokenType → Int → ParseState → Int × ParseState
  | 0, _, vars, s => (vars, noFuel s)
  | Nat.succ fuel, type, vars, s =>
    let s := parsePrecedence fuel ((getRule type).level + 1) s
    let vars := vars + 1
    let (m, s) := matchT s .TOKEN_DOT_DOT
    if m then concatLoop fuel type vars s else (vars, s)

/-- `concat`. -/
def concatFn : Nat → Bool → ParseState → ParseState
  | 0, _, s => noFuel s
  | Nat.succ fuel, _canAssign, s =>
    let type := s.previous.ttype
    let (vars, s) := concatLoop fuel type 1 s
    let s := writeu8 s OP_CONCAT
    let s := writeu8 s vars
    valuePopped s (vars - 1)

/-- the argument list of `parseArguments`. -/
def argsLoop : Nat → Int → ParseState → Int × ParseState
  | 0, args, s => (args, noFuel s)
  | Nat.succ fuel, args, s =>
    let (_, s) := expression fuel 1 true s
    let args := args + 1
    let (m, s) := matchT s .TOKEN_COMMA
    if m then argsLoop fuel args s else (args, s)

/-- `parseArguments`. -/
def parseArguments : Nat → ParseState → Int × ParseState
  | 0, s => (0, noFuel s)
  | Nat.succ fuel, s =>
    let (args, s) :=
      if ¬ check s .TOKEN_RIGHT_PAREN then argsLoop fuel 0 s else (0, s)
    let s := consume s .TOKEN_RIGHT_PAREN "Expected ) to end call."
    let s := if args > 255 then errorAtCurrent s "Too many arguments passed in call." else s
    (args, s)

/-- `call_` (the argument count is read back through a `uint8_t`). -/
def callFn : Nat → Bool → ParseState → ParseState
  | 0, _, s => noFuel s
  | Nat.succ fuel, _canAssign, s =>
    let (args, s) := parseArguments fuel s
    let argCount := args % 256
    let s := valuePopped s (argCount + 1)
    let s := writeu8 s OP_CALL
    let s := writeu8 s argCount
    let s := writeu8 s s.compiler.expectedValues
    valuePushed s s.compiler.expectedValues

/-- the key/value entries of `object`. -/
def objectLoop : Nat → Int → ParseState → Int × ParseState
  | 0, entries, s => (entries, noFuel s)
  | Nat.succ fuel, entries, s =>
    let (_, s) := expression fuel 1 true s
    let s := consume s .TOKEN_COLON "Expected : to mark end of key and start of value!"
    let (_, s) := expression fuel 1 true s
    let s := valuePopped s 2
    let entries := entries + 1
    let (m, s) := matchT s .TOKEN_COMMA
    if m ∧ ¬s.hadError then objectLoop fuel entries s else (entries, s)

/-- `object` (a `{k: v, ...}` literal; builds an `OP_NEWDICT`). -/
def objectFn : Nat → Bool → ParseState → ParseState
  | 0, _, s => noFuel s
  | Nat.succ fuel, _canAssign, s =>
    let (m, s) := matchT s .TOKEN_RIGHT_BRACE
    let (entries, s) :=
      if m then ((0 : Int), s)
      else
        let (entries, s) := objectLoop fuel 0 s
        (entries, consume s .TOKEN_RIGHT_BRACE "Expected \x7d to end object definition.")
    let s := writeu8 s OP_NEWDICT
    let s := writeu16 s entries
    valuePushed s 1

/-- `dot`: field get/set/increment/invoke after `.`. -/
def dotFn : Nat → Bool → ParseState → ParseState
  | 0, _, s => noFuel s
  | Nat.succ fuel, canAssign, s =>
    let s := consume s .TOKEN_IDENTIFIER "Expected property name after dot."
    let (name, s) := identifierConstant s s.previous
    let (mEq, s) := if canAssign then matchT s .TOKEN_EQUAL else (false, s)
    if mEq then
      let s := writeu8 s OP_LOADCONST
      let s := writeu16 s name
      let (_, s) := expression fuel 1 true s
      let s := writeu8 s OP_SETOBJECT
      valuePopped s 2
    else
      let (mPP, s) := matchT s .TOKEN_PLUS_PLUS
      if mPP then
        writeu16 (writeu8 (writeu8 s OP_INCOBJECT) (128 + 1)) name
      else
        let (mMM, s) := matchT s .TOKEN_MINUS_MINUS
        if mMM then
          writeu16 (writeu8 (writeu8 s OP_INCOBJECT) (128 - 1)) name
        else
          let (mLP, s) := matchT s .TOKEN_LEFT_PAREN
          if mLP then
            let s := writeu8 s OP_LOADCONST
            let s := writeu16 s name
            let (args, s) := parseArguments fuel s
            let argsB := args % 256
            let s := writeu8 s OP_INVOKE
            let s := writeu8 s argsB
            let s := writeu8 s s.compiler.expectedValues
            let s := valuePopped s (argsB + 1)
            valuePushed s s.compiler.expectedValues
          else
            writeu8 (writeu16 (writeu8 s OP_LOADCONST) name) OP_GETOBJECT

/-- `_index`: `[k]` get/set/increment. -/
def indexFn : Nat → Bool → ParseState → ParseState
  | 0, _, s => noFuel s
  | Nat.succ fuel, canAssign, s =>
    let (_, s) := expression fuel 1 true s
    let s := consume s .TOKEN_RIGHT_BRACKET "Expected ] to end index."
    let (mEq, s) := if canAssign then matchT s .TOKEN_EQUAL else (false, s)
    let s :=
      if mEq then
        let (_, s) := expression fuel 1 true s
        let s := writeu8 s OP_NEWINDEX
        valuePopped s 2
      else
        let (mPP, s) := matchT s .TOKEN_PLUS_PLUS
        if mPP then
          writeu8 (writeu8 s OP_INCINDEX) (128 + 1)
        else
          let (mMM, s) := matchT s .TOKEN_MINUS_MINUS
          if mMM then
            writeu8 (writeu8 s OP_INCINDEX) (128 - 1)
          else
            writeu8 s OP_INDEX
    valuePopped s 1

/-- the dotted/indexed chain walk of `walkIndexes`; returns the final
`(indexType, ident)` pair at the break. -/
def walkIndexesLoop : Nat → Int → Int → ParseState → Int × Int × ParseState
  | 0, lastIndexType, lastIdent, s => (lastIndexType, lastIdent, noFuel s)
  | Nat.succ fuel, lastIndexType, lastIdent, s =>
    let (mDot, s) := matchT s .TOKEN_DOT
    let (brk, indexType, ident, s) :=
      if mDot then
        let s := consume s .TOKEN_IDENTIFIER "Expected property name after dot."
        let (ident, s) := identifierConstant s s.previous
        (false, (0 : Int), ident, s)
      else
        let (mBr, s) := matchT s .TOKEN_LEFT_BRACKET
        if mBr then (false, (1 : Int), lastIdent, s)
        else (true, lastIndexType, lastIdent, s)
    if brk then (lastIndexType, lastIdent, s)
    else
      let s :=
        if lastIndexType = 0 then
          writeu8 (writeu16 (writeu8 s OP_LOADCONST) lastIdent) OP_GETOBJECT
        else if lastIndexType = 1 then
          valuePopped (writeu8 s OP_INDEX) 1
        else s
      let s :=
        if indexType = 1 then
          let (_, s) := expression fuel 1 true s
          consume s .TOKEN_RIGHT_BRACKET "Expected ] to end index."
        else s
      walkIndexesLoop fuel indexType ident s

/-- `walkIndexes`: chase `.field` and `[k]` suffixes, then emit the
in-place increment on the final storage. -/
def walkIndexes : Nat → Int → Int → Int → ParseState → ParseState
  | 0, _, _, _, s => noFuel s
  | Nat.succ fuel, lastIndexType, lastIdent, val, s =>
    let (indexType, ident, s) := walkIndexesLoop fuel lastIndexType lastIdent s
    if indexType = 0 then
      let s := writeu8 s OP_INCOBJECT
      let s := writeu8 s (128 + val)
      let s := writeu16 s ident
      valuePopped s 1
    else if indexType = 1 then
      let s := writeu8 s OP_INCINDEX
      let s := writeu8 s (128 + val)
      valuePopped s 2
    else s

/-- `increment` (the prefix `++`/`--` bodies): update the storage in place
by the biased delta, then re-push the delta as a constant and `OP_ADD` it
onto the old value the `INC*` instruction left on the stack. -/
def increment : Nat → Int → ParseState → ParseState
  | 0, _, s => noFuel s
  | Nat.succ fuel, val, s =>
    let name := s.previous
    let (mDot, s) := matchT s .TOKEN_DOT
    let s :=
      if mDot then
        let s := namedVariable fuel name false false s
        let s := consume s .TOKEN_IDENTIFIER "Expected property name after dot."
        let (ident, s) := identifierConstant s s.previous
        walkIndexes fuel 0 ident val s
      else
        let (mBr, s) := matchT s .TOKEN_LEFT_BRACKET
        if mBr then
          let s := namedVariable fuel name false false s
          let (_, s) := expression fuel 1 true s
          let s := consume s .TOKEN_RIGHT_BRACKET "Expected ] to end index."
          walkIndexes fuel 1 0 val s
        else
          let (op, arg, s) :=
            match getLocal s.compiler name with
            | some i => (OP_INCLOCAL, (i : Int), s)
            | none =>
                match getUpvalue s.compiler s.enclosing name with
                | (some i, cur, encl) =>
                    (OP_INCUPVAL, (i : Int), { s with compiler := cur, enclosing := encl })
                | (none, cur, encl) =>
                    let s := { s with compiler := cur, enclosing := encl }
                    let (arg, s) := identifierConstant s name
                    (OP_INCGLOBAL, arg, s)
          let s := writeu8 s op
          let s := writeu8 s (128 + val)
          if op = OP_INCGLOBAL then writeu16 s arg else writeu8 s arg
    let s := writeConstant s (CValue.num val)
    writeu8 s OP_ADD

/-- `preincrement` (`++i`). -/
def preincrement : Nat → Bool → ParseState → ParseState
  | 0, _, s => noFuel s
  | Nat.succ fuel, _canAssign, s =>
    let s := consume s .TOKEN_IDENTIFIER "Expected identifier after ++"
    increment fuel 1 s

/-- `predecrement` (`--i`). -/
def predecrement : Nat → Bool → ParseState → ParseState
  | 0, _, s => noFuel s
  | Nat.succ fuel, _canAssign, s =>
    let s := consume s .TOKEN_IDENTIFIER "Expected identifier after --"
    increment fuel (-1) s

/-- `expression`: parse with `needed` values requested; pop any surplus
above the requested balance, report a deficit when forced, and return the
net number of values this expression left. -/
def expression : Nat → Int → Bool → ParseState → Int × ParseState
  | 0, _, _, s => (0, noFuel s)
  | Nat.succ fuel, needed, forceNeeded, s =>
    let lastExpected := s.compiler.expectedValues
    let saved := s.compiler.pushedValues + needed
    let s := { s with compiler := { s.compiler with expectedValues := needed } }
    let s := parsePrecedence fuel PREC_ASSIGNMENT s
    let s :=
      if s.compiler.pushedValues > saved then
        let d := s.compiler.pushedValues - saved
        valuePopped (writePop s d) d
      else if forceNeeded ∧ s.compiler.pushedValues < saved then
        errorP s "Missing expression!"
      else s
    let s := { s with compiler := { s.compiler with expectedValues := lastExpected } }
    (s.compiler.pushedValues - (saved - needed), s)

/-- the right-hand-side loop of `varDeclaration`'s `=` branch: distribute
expression results over the declared slots. -/
def varDeclAssignLoop : Nat → Int → ParseState → Int × ParseState
  | 0, expectedValues, s => (expectedValues, noFuel s)
  | Nat.succ fuel, expectedValues, s =>
    let s := valuePopped s 1
    let (pushed, s) := expression fuel expectedValues false s
    let s := valuePushed s 1
    let expectedValues := expectedValues - pushed
    let (expectedValues, s) :=
      if expectedValues < 0 then
        let s := writePop s (-expectedValues)
        let s := valuePopped s (-expectedValues)
        ((1 : Int), s)
      else (expectedValues, s)
    let (m, s) := matchT s .TOKEN_COMMA
    if m then varDeclAssignLoop fuel expectedValues s else (expectedValues, s)

/-- `varDeclaration`: one declared name per recursion; `=` hands the
remaining count to the distribution loop and nil-pads the shortfall; a bare
declaration gets a single `OP_NIL`. -/
def varDeclaration : Nat → Bool → Int → ParseState → ParseState
  | 0, _, _, s => noFuel s
  | Nat.succ fuel, forceLocal, expectedValues, s =>
    let (ident, s) := parseVariable s "Expected identifer!" forceLocal
    let expectedValues := expectedValues + 1
    let (mEq, s) := matchT s .TOKEN_EQUAL
    if mEq then
      let (ev, s) := varDeclAssignLoop fuel expectedValues s
      let s := varDeclNilPad ev s
      defineVariable s ident forceLocal
    else
      let (mC, s) := matchT s .TOKEN_COMMA
      if mC then
        let s := varDeclaration fuel forceLocal expectedValues s
        defineVariable s ident forceLocal
      else
        let s := writeu8 s OP_NIL
        let s := valuePushed s 1
        defineVariable s ident forceLocal

/-- the body loop of `ifStatement` (declarations until
`end`/`else`/`elseif`/EOF/error token). -/
def ifBodyLoop : Nat → ParseState → ParseState
  | 0, s => noFuel s
  | Nat.succ fuel, s =>
    if ¬(check s .TOKEN_END ∨ check s .TOKEN_ELSE ∨ check s .TOKEN_ELSEIF ∨
         check s .TOKEN_EOF ∨ check s .TOKEN_ERROR) then
      ifBodyLoop fuel (declaration fuel s)
    else s

/-- `ifStatement` (recursing for `elseif`). -/
def ifStatement : Nat → ParseState → ParseState
  | 0, s => noFuel s
  | Nat.succ fuel, s =>
    let (_, s) := expression fuel 1 true s
    let s := consume s .TOKEN_THEN "Expect then after expression."
    let (jump, s) := writeJmp s OP_PEJMP
    let s := valuePopped s 1
    let s := beginScope s
    let s := ifBodyLoop fuel s
    let s := endScope s
    let (mElse, s) := matchT s .TOKEN_ELSE
    if mElse then
      let (elseJump, s) := writeJmp s OP_JMP
      let s := patchJmp s jump
      let s := endScope (blockFn fuel (beginScope s))
      patchJmp s elseJump
    else
      let (mElseif, s) := matchT s .TOKEN_ELSEIF
      if mElseif then
        let (elseJump, s) := writeJmp s OP_JMP
        let s := patchJmp s jump
        let s := ifStatement fuel s
        patchJmp s elseJump
      else
        let s := patchJmp s jump
        consume s .TOKEN_END "end expected to end block."

/-- `whileStatement`. -/
def whileStatement : Nat → ParseState → ParseState
  | 0, s => noFuel s
  | Nat.succ fuel, s =>
    let cachedLoop := s.compiler.loop
    let s := startLoop s
    let jumpLocation := getChunkCount s
    let (_, s) := expression fuel 1 true s
    let s := consume s .TOKEN_DO "expected do after conditional expression."
    let (exitJump, s) := writeJmp s OP_PEJMP
    let s := valuePopped s 1
    let s := endScope (blockFn fuel (beginScope s))
    let s := writeJmpBack s jumpLocation
    let s := endLoop s
    let s := { s with compiler := { s.compiler with loop := cachedLoop } }
    patchJmp s exitJump

/-- the parameter list of `function()`. -/
def paramsLoop : Nat → ParseState → ParseState
  | 0, s => noFuel s
  | Nat.succ fuel, s =>
    if check s .TOKEN_DOT_DOT_DOT then s
    else
      let s := modifyFunction s (fun f => f.withArgs (f.args + 1))
      let s := if s.compiler.function.args > 65534 then
          errorAtCurrent s "Too many parameters!" else s
      let (funcIdent, s) := parseVariable s "Expected identifier for parameter!" true
      let s := defineVariable s funcIdent true
      let s := valuePushed s 1
      let (m, s) := matchT s .TOKEN_COMMA
      if m then paramsLoop fuel s else s

/-- `function()`: compile a function body under a fresh compiler, then wrap
it with `OP_CLOSURE` and the upvalue directives in the enclosing chunk. -/
def functionFn : Nat → FunctionType → ParseState → ParseState
  | 0, _, s => noFuel s
  | Nat.succ fuel, type, s =>
    let s := initCompilerState s type
    let savedPushed := s.compiler.pushedValues
    let s := beginScope s
    let s := consume s .TOKEN_LEFT_PAREN "Expected ( after identifier."
    let s := if ¬ check s .TOKEN_RIGHT_PAREN then paramsLoop fuel s else s
    let (mVar, s) := matchT s .TOKEN_DOT_DOT_DOT
    let s :=
      if mVar then
        let (vari, s) := parseVariable s "Expected identifier for variadic dictionary!" true
        let s := defineVariable s vari true
        let s := valuePushed s 1
        modifyFunction s (fun f => f.withVariadic true)
      else s
    let s := consume s .TOKEN_RIGHT_PAREN "Expected ) after parameters."
    let s := blockFn fuel s
    let s := alignStack s savedPushed
    let s := endScope s
    let (objFunc, comp, s) := endCompiler s
    let s := writeu8 s OP_CLOSURE
    let (k, s) := makeConstant s (CValue.ofFunc objFunc)
    let s := writeu16 s k
    let s := valuePushed s 1
    closureUpvalsLoop comp 0 objFunc.upvals s

/-- `functionDeclaration`. -/
def functionDeclaration : Nat → ParseState → ParseState
  | 0, s => noFuel s
  | Nat.succ fuel, s =>
    let (var, s) := parseVariable s "Expected identifer!" false
    let s := if s.compiler.scopeDepth > 0 then markInitialized s var.toNat else s
    let s := functionFn fuel .FTYPE_FUNCTION s
    defineVariable s var false

/-- `localFunction`. -/
def localFunction : Nat → ParseState → ParseState
  | 0, s => noFuel s
  | Nat.succ fuel, s =>
    let (var, s) := parseVariable s "Expected identifer!" true
    let s := markInitialized s var.toNat
    let s := functionFn fuel .FTYPE_FUNCTION s
    defineVariable s var true

/-- the return-value list of `returnStatement`. -/
def retValuesLoop : Nat → Int → ParseState → Int × ParseState
  | 0, rvalues, s => (rvalues, noFuel s)
  | Nat.succ fuel, rvalues, s =>
    let (_, s) := expression fuel 1 true s
    let rvalues := rvalues + 1
    let (m, s) := matchT s .TOKEN_COMMA
    if m then retValuesLoop fuel rvalues s else (rvalues, s)

/-- `returnStatement`: outside a function it errors; a bare `return` emits
`OP_NIL; OP_RETURN 1`; otherwise the value list is returned. -/
def returnStatement : Nat → ParseState → ParseState
  | 0, s => noFuel s
  | Nat.succ fuel, s =>
    if s.compiler.ftype ≠ .FTYPE_FUNCTION ∧ s.compiler.ftype ≠ .FTYPE_METHOD then
      errorP s "Expected return in function!"
    else if blockFollow s.current then
      writeu8 (writeu8 (writeu8 s OP_NIL) OP_RETURN) 1
    else
      let (rvalues, s) := retValuesLoop fuel 0 s
      let s := writeu8 s OP_RETURN
      let s := writeu8 s rvalues
      valuePopped s rvalues

/-- the declared-name list of `forEachLoop`. -/
def forEachValuesLoop : Nat → Int → ParseState → Int × ParseState
  | 0, values, s => (values, noFuel s)
  | Nat.succ fuel, values, s =>
    let (funcIdent, s) := parseVariable s "Expected identifier!" true
    let s := defineVariable s funcIdent true
    let values := values + 1
    let (m, s) := matchT s .TOKEN_COMMA
    if m then forEachValuesLoop fuel values s else (values, s)

/-- `forEachLoop` (`for v, ... in expr do ... end`). -/
def forEachLoop : Nat → ParseState → ParseState
  | 0, s => noFuel s
  | Nat.succ fuel, s =>
    let s := beginScope s
    let s := { s with compiler := { s.compiler with
        locals := arrWrite s.compiler.locals s.compiler.localCount
          { name := { ttype := .TOKEN_IDENTIFIER, text := "", line := 0 },
            depth := s.compiler.scopeDepth, isCaptured := false },
        localCount := s.compiler.localCount + 1 } }
    let s := beginScope s
    let (values, s) := forEachValuesLoop fuel 0 s
    if values > 255 then errorP s "Too many values expected!"
    else
      let s := consume s .TOKEN_IN "Expected in before iterator!"
      let (_, s) := expression fuel 1 true s
      let s := consume s .TOKEN_DO "Expected do before loop block!"
      let s := writeu8 s OP_ITER
      let cachedLoop := s.compiler.loop
      let s := startLoop s
      let s := { s with compiler := { s.compiler with loop :=
          { s.compiler.loop with scope := s.compiler.loop.scope - 1 } } }
      let loopStart := getChunkCount s
      let s := writeu8 s OP_NEXT
      let s := writeu8 s values
      let jmpPatch := getChunkCount s
      let s := writeu16 s 0xFFFF
      let s := valuePushed s values
      let s := blockFn fuel s
      let s := endScope s
      let s := writeJmpBack s loopStart
      let s := endLoop s
      let s := { s with compiler := { s.compiler with loop := cachedLoop } }
      let s := patchJmp s jmpPatch
      let s := endScope s
      valuePopped s 1

/-- `forLoop` (C-style `for (init; cond; step) do ... end`, or dispatch to
the iterator form). -/
def forLoop : Nat → ParseState → ParseState
  | 0, s => noFuel s
  | Nat.succ fuel, s =>
    if check s .TOKEN_IDENTIFIER then forEachLoop fuel s
    else
      let s := beginScope s
      let s := consume s .TOKEN_LEFT_PAREN "Expected ( after for"
      let (mEos, s) := matchT s .TOKEN_EOS
      let s :=
        if ¬mEos then
          let s := expressionStatement fuel s
          consume s .TOKEN_EOS "Expected ; after initializer!"
        else s
      let cachedLoop := s.compiler.loop
      let s := startLoop s
      let loopStart := getChunkCount s
      let (mEos2, s) := matchT s .TOKEN_EOS
      let (exitJmp, s) :=
        if ¬mEos2 then
          let (_, s) := expression fuel 1 true s
          let s := consume s .TOKEN_EOS "Expected ; after conditional"
          let (j, s) := writeJmp s OP_PEJMP
          (some j, valuePopped s 1)
        else (none, s)
      let (mRp, s) := matchT s .TOKEN_RIGHT_PAREN
      let (loopStart, s) :=
        if ¬mRp then
          let (bodyJmp, s) := writeJmp s OP_JMP
          let s := endLoop s
          let s := startLoop s
          let iteratorStart := getChunkCount s
          let (_, s) := expression fuel 0 true s
          let s := consume s .TOKEN_RIGHT_PAREN "Expected ) after iterator"
          let s := writeJmpBack s loopStart
          let s := patchJmp s bodyJmp
          (iteratorStart, s)
        else (loopStart, s)
      let s := consume s .TOKEN_DO "Expected do"
      let s := endScope (blockFn fuel (beginScope s))
      let s := writeJmpBack s loopStart
      let s := match exitJmp with | some j => patchJmp s j | none => s
      let s := endLoop s
      let s := { s with compiler := { s.compiler with loop := cachedLoop } }
      endScope s

/-- the method-entry loop of `_proto` (note: `entries` is incremented even
when nothing was matched, exactly as in C). -/
def protoLoop : Nat → Int → ParseState → Int × ParseState
  | 0, entries, s => (entries, noFuel s)
  | Nat.succ fuel, entries, s =>
    let (mEnd, s) := matchT s .TOKEN_END
    if mEnd then (entries, s)
    else
      let (mEof, s) := matchT s .TOKEN_EOF
      if mEof then (entries, s)
      else if s.hadError then (entries, s)
      else
        let (mFn, s) := matchT s .TOKEN_FUNCTION
        let s :=
          if mFn then
            let s := consume s .TOKEN_IDENTIFIER "Expected identifier!"
            let (fieldIdent, s) := identifierConstant s s.previous
            let s := writeu8 s OP_LOADCONST
            let s := writeu16 s fieldIdent
            let s := functionFn fuel .FTYPE_METHOD s
            valuePopped s 1
          else s
        protoLoop fuel (entries + 1) s

/-- `_proto`. -/
def protoFn : Nat → ParseState → ParseState
  | 0, s => noFuel s
  | Nat.succ fuel, s =>
    let (var, s) := parseVariable s "Expected identifer!" false
    let (entries, s) := protoLoop fuel 0 s
    let s := writeu8 s OP_NEWOBJECT
    let s := writeu16 s entries
    let s := valuePushed s 1
    defineVariable s var false

/-- `block`: declarations until `end`/EOF/error token, then consume the
`end`. -/
def blockFn : Nat → ParseState → ParseState
  | 0, s => noFuel s
  | Nat.succ fuel, s =>
    if ¬(check s .TOKEN_END ∨ check s .TOKEN_EOF ∨ check s .TOKEN_ERROR) then
      blockFn fuel (declaration fuel s)
    else consume s .TOKEN_END "end expected to end block."

/-- `expressionStatement`: dispatch on the statement keyword (each branch
consuming its token), falling back to a zero-value expression; then
`alignStack` restores the saved `pushedValues` balance. -/
def expressionStatement : Nat → ParseState → ParseState
  | 0, s => noFuel s
  | Nat.succ fuel, s =>
    let savedPushed := s.compiler.pushedValues
    let s :=
      let (mVar, s) := matchT s .TOKEN_VAR
      if mVar then varDeclaration fuel false 0 s
      else
        let (mLocal, s) := matchT s .TOKEN_LOCAL
        if mLocal then
          let (mFn, s) := matchT s .TOKEN_FUNCTION
          if mFn then localFunction fuel s
          else varDeclaration fuel true 0 s
        else
          let (mIf, s) := matchT s .TOKEN_IF
          if mIf then ifStatement fuel s
          else
            let (mDo, s) := matchT s .TOKEN_DO
            if mDo then endScope (blockFn fuel (beginScope s))
            else
              let (mWhile, s) := matchT s .TOKEN_WHILE
              if mWhile then whileStatement fuel s
              else
                let (mFor, s) := matchT s .TOKEN_FOR
                if mFor then forLoop fuel s
                else
                  let (mFn, s) := matchT s .TOKEN_FUNCTION
                  if mFn then functionDeclaration fuel s
                  else
                    let (mProto, s) := matchT s .TOKEN_PROTO
                    if mProto then protoFn fuel s
                    else
                      let (mBreak, s) := matchT s .TOKEN_BREAK
                      if mBreak then breakStatement s
                      else
                        let (mCont, s) := matchT s .TOKEN_CONTINUE
                        if mCont then continueStatement s
                        else
                          let (mRet, s) := matchT s .TOKEN_RETURN
                          if mRet then returnStatement fuel s
                          else (expression fuel 0 false s).2
    alignStack s savedPushed

/-- `statement`. -/
def statement : Nat → ParseState → ParseState
  | 0, s => noFuel s
  | Nat.succ fuel, s => expressionStatement fuel s

/-- `declaration`: a statement, then panic recovery if it raised. -/
def declaration : Nat → ParseState → ParseState
  | 0, s => noFuel s
  | Nat.succ fuel, s =>
    let s := statement fuel s
    if s.panicMode then synchronize fuel s else s

end

-- ==================== API: cosmoP_compileString ====================

/-- the `while (!match(&parser, TOKEN_EOF)) declaration(&parser);` loop of
`cosmoP_compileString`. -/
def compileLoop : Nat → ParseState → ParseState
  | 0, s => noFuel s
  | Nat.succ fuel, s =>
    let (m, s) := matchT s .TOKEN_EOF
    if m then s else compileLoop fuel (declaration fuel s)

/-- everything `cosmoP_compileString` does to the parser before it looks at
`hadError`: init, prime the token pair, compile every declaration, demand
EOF, pop the root locals. -/
def compileParse (fuel : Nat) (tokens : List CToken) (module : String) : ParseState :=
  let s := initParseState tokens module
  let s := advance s
  let s := compileLoop fuel s
  let s := consume s .TOKEN_EOF "End of file expected!"
  popLocals s 0

/-- a value on the embedder (VM) stack: `cosmoP_compileString` only ever
pushes `nil` or a closure. -/
inductive VMValue : Type where
  | nil : VMValue
  | closure : CObjFunction → VMValue

/-- the slice of `CState` the compiler touches: the value stack and the
recursive GC freeze counter. -/
structure CState : Type where
  stack : List VMValue
  freezeGC : Nat

/-- `cosmoM_freezeGC` (`cmem.h`, not in the snapshot).  Modelled from the
spec: freezing is recursive — a count, not a flag. -/
def cosmoM_freezeGC (st : CState) : CState :=
  { st with freezeGC := st.freezeGC + 1 }

/-- `cosmoM_unfreezeGC` (`cmem.h`, not in the snapshot).  Modelled from the
spec: the matching decrement (collection may then run; no claim observes
it). -/
def cosmoM_unfreezeGC (st : CState) : CState :=
  { st with freezeGC := st.freezeGC - 1 }

/-- `cosmoV_pushValue`. -/
def cosmoV_pushValue (st : CState) (v : VMValue) : CState :=
  { st with stack := v :: st.stack }

/-- `cosmoP_compileString`: freeze the GC, parse the whole token stream,
then either push `nil` and return no function (`hadError`), or push a
closure wrapping the root function and return it.  The C code pushes the
closure before calling `endCompiler`, but the closure holds a pointer to
the very `CObjFunction` that `endCompiler` then finishes (appending the
final `OP_NIL; OP_RETURN 1`), so the value model pushes the finished
function. -/
def cosmoP_compileString (fuel : Nat) (tokens : List CToken) (module : String)
    (st : CState) : Option CObjFunction × CState :=
  let st := cosmoM_freezeGC st
  let p := compileParse fuel tokens module
  if p.hadError then
    let _ := endCompiler p
    let st := cosmoV_pushValue st VMValue.nil
    (none, cosmoM_unfreezeGC st)
  else
    let (resFunc, _, _) := endCompiler p
    let st := cosmoV_pushValue st (VMValue.closure resFunc)
    (some resFunc, cosmoM_unfreezeGC st)

-- ==================== concrete tokens for the evaluation witnesses ====================

def identTok (t : String) : CToken := { ttype := .TOKEN_IDENTIFIER, text := t, line := 1 }
def tok (ty : CTokenType) : CToken := { ttype := ty, text := "", line := 1 }

/-- an initial `CState` for the witnesses. -/
def st0 : CState := { stack := [], freezeGC := 0 }

/-- a local slot `j` of a locals array is a candidate for `getLocal`: it is
initialised (`depth != -1`) and its name matches. -/
def localMatches (locals : List Local) (name : CToken) (j : Nat) : Prop :=
  (locals.getD j defaultLocal).depth ≠ -1 ∧
    identifiersEqual name (locals.getD j defaultLocal).name

/-- a frame whose locals array declares `x` twice (inner shadowing outer). -/
def wFrame : Frame :=
  { dummyFrame with
      locals := [{ name := identTok "x", depth := 0, isCaptured := false },
                 { name := identTok "x", depth := 0, isCaptured := false }],
      localCount := 2 }

/-- a compiler frame whose function has already captured 256 upvalues — the
C `upvalues[256]` array is full. -/
def overflowFrame : Frame :=
  { dummyFrame with
      upvalues := List.replicate 256 { index := 0, isLocal := true },
      function := (newFunction "f" "m").withUpvals 256 }

/-- parser stopped at an `end` token mid-panic (with `y` still to scan). -/
def syncProbeState : ParseState :=
  { initParseState [identTok "y", tok .TOKEN_EOF] "m" with
      current := tok .TOKEN_END, hadError := true, panicMode := true }

/-- parser after an earlier error and a completed `synchronize` (panic
cleared, `hadError` still set). -/
def postPanicState : ParseState :=
  { initParseState [] "m" with hadError := true }

/-- primed parser looking at a bare `nil` expression statement. -/
def witExprState : ParseState :=
  advance (initParseState [tok .TOKEN_NIL, tok .TOKEN_EOF] "m")

/-- primed parser looking at `x = nil` (for `var x = nil`). -/
def witVarState : ParseState :=
  advance (initParseState [identTok "x", tok .TOKEN_EQUAL, tok .TOKEN_NIL, tok .TOKEN_EOF] "m")

/-- parser about to read a postfix `++` after the identifier `x`. -/
def wPostState : ParseState :=
  { initParseState [tok .TOKEN_EOF] "m" with
      current := tok .TOKEN_PLUS_PLUS, previous := identTok "x" }

/-- parser that consumed the identifier of a prefix `++x` (current is EOF). -/
def wPreState : ParseState :=
  { initParseState [] "m" with previous := identTok "x" }

/-- parser whose current compiler is `wFrame` (for name-resolution
witnesses). -/
def wResState : ParseState :=
  { initParseState [] "m" with compiler := wFrame }

/-- a function whose constant pool already holds 65 536 constants. -/
def fullConstFunc : CObjFunction :=
  CObjFunction.mk [] [] (List.replicate 65536 CValue.nil) 0 0 false "m" "m"

/-- a parser whose current chunk has a full constant pool. -/
def fullConstState : ParseState :=
  { initParseState [] "m" with compiler := { dummyFrame with function := fullConstFunc } }

-- ==================== helper lemmas (shared) ====================

theorem withBuf_buf (f : CObjFunction) (b : List Int) : (f.withBuf b).buf = b := by
  cases f; rfl

theorem withBuf_consts (f : CObjFunction) (b : List Int) : (f.withBuf b).consts = f.consts := by
  cases f; rfl

theorem withLineBuf_buf (f : CObjFunction) (l : List Int) : (f.withLineBuf l).buf = f.buf := by
  cases f; rfl

theorem withLineBuf_consts (f : CObjFunction) (l : List Int) :
    (f.withLineBuf l).consts = f.consts := by
  cases f; rfl

theorem withConsts_buf (f : CObjFunction) (c : List CValue) : (f.withConsts c).buf = f.buf := by
  cases f; rfl

theorem withConsts_consts (f : CObjFunction) (c : List CValue) :
    (f.withConsts c).consts = c := by
  cases f; rfl

theorem writeu8Chunk_buf (f : CObjFunction) (i line : Int) :
    (writeu8Chunk f i line).buf = f.buf ++ [i % 256] := by
  cases f; rfl

theorem writeu16Chunk_buf (f : CObjFunction) (i line : Int) :
    (writeu16Chunk f i line).buf = f.buf ++ [i % 65536 % 256, i % 65536 / 256] := by
  cases f; rfl

theorem alignStack_pushedValues (s : ParseState) (a : Int) :
    (alignStack s a).compiler.pushedValues = a := rfl

theorem modifyFunction_pushedValues (s : ParseState) (g : CObjFunction → CObjFunction) :
    (modifyFunction s g).compiler.pushedValues = s.compiler.pushedValues := rfl

theorem writeu8_pushedValues (s : ParseState) (i : Int) :
    (writeu8 s i).compiler.pushedValues = s.compiler.pushedValues := rfl

theorem writeu16_pushedValues (s : ParseState) (i : Int) :
    (writeu16 s i).compiler.pushedValues = s.compiler.pushedValues := rfl

theorem writePop_pushedValues (s : ParseState) (i : Int) :
    (writePop s i).compiler.pushedValues = s.compiler.pushedValues := rfl

theorem errorAt_compiler (s : ParseState) (t : CToken) (m : String) :
    (errorAt s t m).compiler = s.compiler := by
  unfold errorAt; split <;> rfl

theorem errorAt_current (s : ParseState) (t : CToken) (m : String) :
    (errorAt s t m).current = s.current := by
  unfold errorAt; split <;> rfl

theorem errorAt_tokens (s : ParseState) (t : CToken) (m : String) :
    (errorAt s t m).tokens = s.tokens := by
  unfold errorAt; split <;> rfl

theorem errorAt_previous (s : ParseState) (t : CToken) (m : String) :
    (errorAt s t m).previous = s.previous := by
  unfold errorAt; split <;> rfl

theorem errorAt_of_hadError (s : ParseState) (t : CToken) (m : String)
    (h : s.hadError = true) : errorAt s t m = s := by
  unfold errorAt; simp [h]

theorem errorAt_hadError_mono (s : ParseState) (t : CToken) (m : String)
    (h : s.hadError = true) : (errorAt s t m).hadError = true := by
  rw [errorAt_of_hadError s t m h]; exact h

theorem errorP_compiler (s : ParseState) (m : String) :
    (errorP s m).compiler = s.compiler := errorAt_compiler s s.previous m

theorem errorP_current (s : ParseState) (m : String) :
    (errorP s m).current = s.current := errorAt_current s s.previous m

theorem errorP_tokens (s : ParseState) (m : String) :
    (errorP s m).tokens = s.tokens := errorAt_tokens s s.previous m

theorem advance_compiler (s : ParseState) : (advance s).compiler = s.compiler := by
  unfold advance errorAtCurrent
  dsimp only
  split <;> simp [errorAt_compiler]

theorem advance_hadError_panic (s : ParseState) (h : s.hadError = true) :
    (advance s).hadError = true ∧ (advance s).panicMode = s.panicMode := by
  unfold advance errorAtCurrent
  dsimp only
  split
  · rw [errorAt_of_hadError _ _ _ (by exact h)]
    exact ⟨h, rfl⟩
  · exact ⟨h, rfl⟩

theorem consume_compiler (s : ParseState) (t : CTokenType) (m : String) :
    (consume s t m).compiler = s.compiler := by
  unfold consume
  split
  · rw [advance_compiler]
  · rw [errorAtCurrent, errorAt_compiler]

theorem matchT_compiler (s : ParseState) (t : CTokenType) :
    ((matchT s t).2).compiler = s.compiler := by
  unfold matchT
  split
  · rw [advance_compiler]
  · rfl

theorem matchT_of_check_false (s : ParseState) (t : CTokenType)
    (h : ¬ s.current.ttype = t) : matchT s t = (false, s) := by
  unfold matchT check
  simp [h]

theorem matchT_of_check_true (s : ParseState) (t : CTokenType)
    (h : s.current.ttype = t) : matchT s t = (true, advance s) := by
  unfold matchT check
  simp [h]

theorem makeConstant_pushedValues (s : ParseState) (v : CValue) :
    ((makeConstant s v).2).compiler.pushedValues = s.compiler.pushedValues := by
  unfold makeConstant addConstant
  dsimp only
  split <;> simp [errorP_compiler, modifyFunction]

theorem makeConstant_current (s : ParseState) (v : CValue) :
    ((makeConstant s v).2).current = s.current := by
  unfold makeConstant addConstant
  dsimp only
  split <;> simp [errorP_current, modifyFunction]

theorem makeConstant_tokens (s : ParseState) (v : CValue) :
    ((makeConstant s v).2).tokens = s.tokens := by
  unfold makeConstant addConstant
  dsimp only
  split <;> simp [errorP_tokens, modifyFunction]

theorem identifierConstant_pushedValues (s : ParseState) (n : CToken) :
    ((identifierConstant s n).2).compiler.pushedValues = s.compiler.pushedValues := by
  rw [identifierConstant]; exact makeConstant_pushedValues s _

theorem identifierConstant_current (s : ParseState) (n : CToken) :
    ((identifierConstant s n).2).current = s.current := by
  rw [identifierConstant]; exact makeConstant_current s _

theorem addLocal_pushedValues (s : ParseState) (n : CToken) :
    (addLocal s n).compiler.pushedValues = s.compiler.pushedValues := by
  unfold addLocal
  split <;> simp [errorP_compiler]

theorem addLocal_current (s : ParseState) (n : CToken) :
    (addLocal s n).current = s.current := by
  unfold addLocal
  split <;> simp [errorP_current]

theorem declareLocalLoop_pushedValues (s : ParseState) (n : CToken) (i rem : Nat) :
    (declareLocalLoop s n i rem).compiler.pushedValues = s.compiler.pushedValues := by
  induction rem generalizing s i with
  | zero => rfl
  | succ rem ih =>
      unfold declareLocalLoop
      dsimp only
      split
      · rfl
      · rw [ih]
        split <;> simp [errorP_compiler]

theorem declareLocalLoop_current (s : ParseState) (n : CToken) (i rem : Nat) :
    (declareLocalLoop s n i rem).current = s.current := by
  induction rem generalizing s i with
  | zero => rfl
  | succ rem ih =>
      unfold declareLocalLoop
      dsimp only
      split
      · rfl
      · rw [ih]
        split <;> simp [errorP_current]

theorem declareLocal_pushedValues (s : ParseState) (fl : Bool) :
    (declareLocal s fl).compiler.pushedValues = s.compiler.pushedValues := by
  unfold declareLocal
  split
  · rfl
  · rw [addLocal_pushedValues, declareLocalLoop_pushedValues]

theorem declareLocal_current (s : ParseState) (fl : Bool) :
    (declareLocal s fl).current = s.current := by
  unfold declareLocal
  split
  · rfl
  · rw [addLocal_current, declareLocalLoop_current]

theorem parseVariable_pushedValues (s : ParseState) (m : String) (fl : Bool) :
    ((parseVariable s m fl).2).compiler.pushedValues = s.compiler.pushedValues := by
  unfold parseVariable
  dsimp only
  split
  · rw [declareLocal_pushedValues, consume_compiler]
  · rw [identifierConstant_pushedValues, declareLocal_pushedValues, consume_compiler]

theorem markInitialized_pushedValues (s : ParseState) (i : Nat) :
    (markInitialized s i).compiler.pushedValues = s.compiler.pushedValues := rfl

theorem defineVariable_hadError (s : ParseState) (g : Int) (fl : Bool) :
    (defineVariable s g fl).hadError = s.hadError := by
  unfold defineVariable
  split
  · rfl
  · split <;> rfl

theorem defineVariable_pushedValues (s : ParseState) (g : Int) (fl : Bool)
    (h : s.hadError = false) :
    (defineVariable s g fl).compiler.pushedValues = s.compiler.pushedValues - 1 := by
  unfold defineVariable
  rw [h]
  simp only [Bool.false_eq_true, if_false]
  split
  · rw [valuePopped, markInitialized]
  · rw [valuePopped, writeu16_pushedValues, writeu8_pushedValues]

theorem valuePushed_pushedValues (s : ParseState) (v : Int) :
    (valuePushed s v).compiler.pushedValues = s.compiler.pushedValues + v := rfl

theorem valuePopped_pushedValues (s : ParseState) (v : Int) :
    (valuePopped s v).compiler.pushedValues = s.compiler.pushedValues - v := rfl

theorem noFuel_compiler (s : ParseState) : (noFuel s).compiler = s.compiler := rfl

theorem expression_delta (fuel : Nat) (needed : Int) (force : Bool) (s : ParseState) :
    (expression fuel needed force s).1 =
      ((expression fuel needed force s).2).compiler.pushedValues - s.compiler.pushedValues := by
  cases fuel with
  | zero => simp [expression, noFuel]
  | succ fuel =>
      unfold expression
      dsimp only
      omega

theorem expression_le (fuel : Nat) (needed : Int) (force : Bool) (s : ParseState)
    (h : 0 ≤ needed) :
    ((expression fuel needed force s).2).compiler.pushedValues
      ≤ s.compiler.pushedValues + needed := by
  cases fuel with
  | zero => simp [expression, noFuel]; omega
  | succ fuel =>
      unfold expression
      dsimp only
      split
      · simp [valuePopped, writePop, writeu8, modifyFunction]
      · split
        · rw [errorP_compiler]; omega
        · omega

theorem varDeclAssignLoop_spec (fuel : Nat) :
    ∀ (e : Int) (s : ParseState), 0 ≤ e →
    0 ≤ (varDeclAssignLoop fuel e s).1 ∧
    ((varDeclAssignLoop fuel e s).2).compiler.pushedValues
      = s.compiler.pushedValues + (e - (varDeclAssignLoop fuel e s).1) := by
  induction fuel with
  | zero =>
      intro e s h
      simp [varDeclAssignLoop, noFuel]
      omega
  | succ fuel ih =>
      intro e s h
      have hd := expression_delta fuel e false (valuePopped s 1)
      have hl := expression_le fuel e false (valuePopped s 1) h
      unfold varDeclAssignLoop
      dsimp only
      rcases hE : expression fuel e false (valuePopped s 1) with ⟨pushed, s2⟩
      rw [hE] at hd hl
      dsimp only at hd hl ⊢
      rw [valuePopped_pushedValues] at hd hl
      have hcond : ¬ (e - pushed < 0) := by omega
      simp only [if_neg hcond]
      have hM4 := matchT_compiler (valuePushed s2 1) .TOKEN_COMMA
      rcases hM : matchT (valuePushed s2 1) .TOKEN_COMMA with ⟨m, s4⟩
      rw [hM] at hM4
      dsimp only at hM4 ⊢
      cases m with
      | true =>
          simp only [if_true]
          obtain ⟨ih1, ih2⟩ := ih (e - pushed) s4 (by omega)
          refine ⟨ih1, ?_⟩
          rw [ih2, hM4, valuePushed_pushedValues]
          omega
      | false =>
          simp only [Bool.false_eq_true, if_false]
          refine ⟨by omega, ?_⟩
          rw [hM4, valuePushed_pushedValues]
          omega

theorem writeu8_buf (s : ParseState) (i : Int) :
    (writeu8 s i).compiler.function.buf = s.compiler.function.buf ++ [i % 256] := by
  unfold writeu8 modifyFunction
  dsimp only
  rw [writeu8Chunk_buf]

theorem nilPadAux_pushedValues (n : Nat) :
    ∀ s : ParseState, (nilPadAux n s).compiler.pushedValues
      = s.compiler.pushedValues + n := by
  induction n with
  | zero => intro s; simp [nilPadAux]
  | succ n ih =>
      intro s
      unfold nilPadAux
      rw [ih, writeu8_pushedValues, valuePushed_pushedValues]
      push_cast
      ring

theorem nilPadAux_buf (n : Nat) :
    ∀ s : ParseState, (nilPadAux n s).compiler.function.buf
      = s.compiler.function.buf ++ List.replicate n OP_NIL := by
  induction n with
  | zero => intro s; simp [nilPadAux]
  | succ n ih =>
      intro s
      unfold nilPadAux
      rw [ih]
      have hmod : OP_NIL % 256 = OP_NIL := by decide
      have hb : (writeu8 (valuePushed s 1) OP_NIL).compiler.function.buf
          = s.compiler.function.buf ++ [OP_NIL] := by
        rw [writeu8_buf, hmod]; rfl
      rw [hb, List.append_assoc]
      rfl

theorem nilPadAux_hadError (n : Nat) :
    ∀ s : ParseState, (nilPadAux n s).hadError = s.hadError := by
  induction n with
  | zero => intro s; rfl
  | succ n ih => intro s; unfold nilPadAux; rw [ih]; rfl

theorem advance_current (s : ParseState) :
    (advance s).current = s.tokens.headD eofToken := by
  unfold advance errorAtCurrent
  dsimp only
  split <;> simp [errorAt_current]

theorem consume_current_of_match (s : ParseState) (t : CTokenType) (m : String)
    (h : s.current.ttype = t) :
    (consume s t m).current = s.tokens.headD eofToken := by
  unfold consume
  rw [if_pos h, advance_current]

theorem parseVariable_current (s : ParseState) (m : String) (fl : Bool) :
    ((parseVariable s m fl).2).current = (consume s .TOKEN_IDENTIFIER m).current := by
  unfold parseVariable
  dsimp only
  split
  · rw [declareLocal_current]
  · rw [identifierConstant_current, declareLocal_current]

theorem varDeclaration_assign_pv (fuel : Nat) (fl : Bool) (k : Int) (s : ParseState)
    (hk : 0 ≤ k)
    (hid : s.current.ttype = .TOKEN_IDENTIFIER)
    (heq : (s.tokens.headD eofToken).ttype = .TOKEN_EQUAL)
    (herr : (varDeclaration (Nat.succ fuel) fl k s).hadError = false) :
    (varDeclaration (Nat.succ fuel) fl k s).compiler.pushedValues
      = s.compiler.pushedValues + k := by
  unfold varDeclaration at herr ⊢
  dsimp only at herr ⊢
  have hpv := parseVariable_pushedValues s "Expected identifer!" fl
  have hcu := parseVariable_current s "Expected identifer!" fl
  rcases hPV : parseVariable s "Expected identifer!" fl with ⟨ident, s1⟩
  rw [hPV] at hpv hcu herr
  dsimp only at hpv hcu herr ⊢
  rw [consume_current_of_match s _ _ hid] at hcu
  have hcur : s1.current.ttype = .TOKEN_EQUAL := by rw [hcu, heq]
  rw [matchT_of_check_true s1 .TOKEN_EQUAL hcur] at herr ⊢
  dsimp only at herr ⊢
  have hloop := varDeclAssignLoop_spec fuel (k + 1) (advance s1) (by omega)
  rcases hL : varDeclAssignLoop fuel (k + 1) (advance s1) with ⟨ev, s3⟩
  rw [hL] at hloop herr
  dsimp only at hloop herr ⊢
  obtain ⟨hev, hpv3⟩ := hloop
  rw [varDeclNilPad] at herr ⊢
  rw [if_pos (show true = true from rfl)] at herr ⊢
  have herr4 : (nilPadAux ev.toNat s3).hadError = false := by
    rw [defineVariable_hadError] at herr
    exact herr
  rw [defineVariable_pushedValues _ _ _ herr4, nilPadAux_pushedValues, hpv3,
      advance_compiler, hpv]
  rw [Int.toNat_of_nonneg hev]
  omega

theorem getLocalAux_some (locals : List Local) (name : CToken) :
    ∀ n i, getLocalAux locals name n = some i →
      i < n ∧ localMatches locals name i ∧
        ∀ j, i < j → j < n → ¬ localMatches locals name j := by
  intro n
  induction n with
  | zero => intro i h; simp [getLocalAux] at h
  | succ n ih =>
      intro i h
      unfold getLocalAux at h
      dsimp only at h
      split at h
      · next hc =>
          cases h
          exact ⟨Nat.lt_succ_self n, hc, fun j hj1 hj2 => absurd hj2 (by omega)⟩
      · next hc =>
          obtain ⟨h1, h2, h3⟩ := ih i h
          refine ⟨by omega, h2, fun j hj1 hj2 => ?_⟩
          rcases Nat.lt_succ_iff_lt_or_eq.mp hj2 with hj | hj
          · exact h3 j hj1 hj
          · subst hj; exact hc
  
theorem getLocalAux_none (locals : List Local) (name : CToken) :
    ∀ n, getLocalAux locals name n = none →
      ∀ j, j < n → ¬ localMatches locals name j := by
  intro n
  induction n with
  | zero => intro _ j hj; omega
  | succ n ih =>
      intro h j hj
      unfold getLocalAux at h
      dsimp only at h
      split at h
      · exact absurd h (by simp)
      · next hc =>
          rcases Nat.lt_succ_iff_lt_or_eq.mp hj with hj2 | hj2
          · exact ih h j hj2
          · subst hj2; exact hc

theorem withUpvals_buf (f : CObjFunction) (u : Nat) : (f.withUpvals u).buf = f.buf := by
  cases f; rfl

theorem addUpvalue_buf (f : Frame) (idx : Nat) (b : Bool) :
    ((addUpvalue f idx b).2).function.buf = f.function.buf := by
  unfold addUpvalue
  dsimp only
  split
  · rfl
  · dsimp only; rw [withUpvals_buf]

theorem getUpvalue_cur_buf (chain : List Frame) (cur : Frame) (name : CToken) :
    ((getUpvalue cur chain name).2.1).function.buf = cur.function.buf := by
  cases chain with
  | nil => rfl
  | cons e rest =>
      unfold getUpvalue
      rcases hgl : getLocal e name with _ | i
      · dsimp only
        rcases hgu : getUpvalue e rest name with ⟨o, e2, rest2⟩
        cases o with
        | none => rfl
        | some u => dsimp only; rw [addUpvalue_buf]
      · dsimp only; rw [addUpvalue_buf]

theorem makeConstant_buf (s : ParseState) (v : CValue) :
    ((makeConstant s v).2).compiler.function.buf = s.compiler.function.buf := by
  unfold makeConstant addConstant
  dsimp only
  split <;> simp [errorP_compiler, modifyFunction, withConsts_buf]

theorem identifierConstant_buf (s : ParseState) (n : CToken) :
    ((identifierConstant s n).2).compiler.function.buf = s.compiler.function.buf := by
  rw [identifierConstant]; exact makeConstant_buf s _

theorem resolveName_current (s : ParseState) (name : CToken) :
    ((resolveName s name).2.2).current = s.current := by
  unfold resolveName
  rcases hgl : getLocal s.compiler name with _ | i
  · dsimp only
    rcases hgu : getUpvalue s.compiler s.enclosing name with ⟨o, cur, encl⟩
    cases o with
    | none => dsimp only; rw [identifierConstant_current]
    | some u => rfl
  · rfl

theorem resolveName_buf (s : ParseState) (name : CToken) :
    ((resolveName s name).2.2).compiler.function.buf = s.compiler.function.buf := by
  unfold resolveName
  rcases hgl : getLocal s.compiler name with _ | i
  · dsimp only
    rcases hgu : getUpvalue s.compiler s.enclosing name with ⟨o, cur, encl⟩
    have hb := getUpvalue_cur_buf s.enclosing s.compiler name
    rw [hgu] at hb
    cases o with
    | none =>
        dsimp only
        rw [identifierConstant_buf]
        exact hb
    | some u => exact hb
  · rfl

theorem resolveName_ops (s : ParseState) (name : CToken) :
    (resolveName s name).1 = (OP_GETLOCAL, OP_SETLOCAL, OP_INCLOCAL) ∨
    (resolveName s name).1 = (OP_GETUPVAL, OP_SETUPVAL, OP_INCUPVAL) ∨
    (resolveName s name).1 = (OP_GETGLOBAL, OP_SETGLOBAL, OP_INCGLOBAL) := by
  unfold resolveName
  rcases hgl : getLocal s.compiler name with _ | i
  · dsimp only
    rcases hgu : getUpvalue s.compiler s.enclosing name with ⟨o, cur, encl⟩
    cases o with
    | none => right; right; rfl
    | some u => right; left; rfl
  · left; rfl

theorem resolveName_local (s : ParseState) (name : CToken) (i : Nat)
    (h : getLocal s.compiler name = some i) :
    resolveName s name = ((OP_GETLOCAL, OP_SETLOCAL, OP_INCLOCAL), (i : Int), s) := by
  unfold resolveName
  rw [h]

theorem resolveName_upval (s : ParseState) (name : CToken) (i : Nat)
    (cur : Frame) (encl : List Frame)
    (h1 : getLocal s.compiler name = none)
    (h2 : getUpvalue s.compiler s.enclosing name = (some i, cur, encl)) :
    resolveName s name = ((OP_GETUPVAL, OP_SETUPVAL, OP_INCUPVAL), (i : Int),
      { s with compiler := cur, enclosing := encl }) := by
  unfold resolveName
  rw [h1, h2]

theorem resolveName_global (s : ParseState) (name : CToken)
    (cur : Frame) (encl : List Frame)
    (h1 : getLocal s.compiler name = none)
    (h2 : getUpvalue s.compiler s.enclosing name = (none, cur, encl)) :
    resolveName s name = ((OP_GETGLOBAL, OP_SETGLOBAL, OP_INCGLOBAL),
      (identifierConstant { s with compiler := cur, enclosing := encl } name).1,
      (identifierConstant { s with compiler := cur, enclosing := encl } name).2) := by
  unfold resolveName
  rw [h1, h2]

theorem getUpvalue_found_local (cur e : Frame) (rest : List Frame) (name : CToken) (i : Nat)
    (h : getLocal e name = some i) :
    getUpvalue cur (e :: rest) name =
      (some (addUpvalue cur (i % 256) true).1, (addUpvalue cur (i % 256) true).2,
        markCaptured e i :: rest) := by
  unfold getUpvalue
  rw [h]

theorem getUpvalue_chained_some (cur e : Frame) (rest : List Frame) (name : CToken)
    (u : Nat) (e2 : Frame) (rest2 : List Frame)
    (h : getLocal e name = none)
    (h2 : getUpvalue e rest name = (some u, e2, rest2)) :
    getUpvalue cur (e :: rest) name =
      (some (addUpvalue cur (u % 256) false).1, (addUpvalue cur (u % 256) false).2,
        e2 :: rest2) := by
  rw [getUpvalue, h, h2]

theorem getUpvalue_chained_none (cur e : Frame) (rest : List Frame) (name : CToken)
    (e2 : Frame) (rest2 : List Frame)
    (h : getLocal e name = none)
    (h2 : getUpvalue e rest name = (none, e2, rest2)) :
    getUpvalue cur (e :: rest) name = (none, cur, e2 :: rest2) := by
  rw [getUpvalue, h, h2]

theorem addUpvalue_fresh (f : Frame) (idx : Nat) (b : Bool)
    (h : (f.upvalues.take f.function.upvals).findIdx?
        (fun u => u.index = idx ∧ u.isLocal = b) = none) :
    addUpvalue f idx b = (f.function.upvals,
      { f with upvalues := arrWriteUp f.upvalues f.function.upvals { index := idx, isLocal := b },
               function := f.function.withUpvals (f.function.upvals + 1) }) := by
  unfold addUpvalue
  dsimp only
  rw [h]

theorem addUpvalue_dup (f : Frame) (idx : Nat) (b : Bool) (j : Nat)
    (h : (f.upvalues.take f.function.upvals).findIdx?
        (fun u => u.index = idx ∧ u.isLocal = b) = some j) :
    addUpvalue f idx b = (j, f) := by
  unfold addUpvalue
  dsimp only
  rw [h]

theorem writeu16_buf (s : ParseState) (i : Int) :
    (writeu16 s i).compiler.function.buf
      = s.compiler.function.buf ++ [i % 65536 % 256, i % 65536 / 256] := by
  unfold writeu16 modifyFunction
  dsimp only
  rw [writeu16Chunk_buf]

theorem valuePushed_buf (s : ParseState) (v : Int) :
    (valuePushed s v).compiler.function.buf = s.compiler.function.buf := rfl

theorem valuePopped_buf (s : ParseState) (v : Int) :
    (valuePopped s v).compiler.function.buf = s.compiler.function.buf := rfl

theorem withUpvals_pv_frame (f : Frame) (idx : Nat) (b : Bool) :
    ((addUpvalue f idx b).2).pushedValues = f.pushedValues := by
  unfold addUpvalue
  dsimp only
  split <;> rfl

theorem getUpvalue_cur_pv (chain : List Frame) (cur : Frame) (name : CToken) :
    ((getUpvalue cur chain name).2.1).pushedValues = cur.pushedValues := by
  cases chain with
  | nil => rfl
  | cons e rest =>
      unfold getUpvalue
      rcases hgl : getLocal e name with _ | i
      · dsimp only
        rcases hgu : getUpvalue e rest name with ⟨o, e2, rest2⟩
        cases o with
        | none => rfl
        | some u => dsimp only; rw [withUpvals_pv_frame]
      · dsimp only; rw [withUpvals_pv_frame]

theorem resolveName_pv (s : ParseState) (name : CToken) :
    ((resolveName s name).2.2).compiler.pushedValues = s.compiler.pushedValues := by
  unfold resolveName
  rcases hgl : getLocal s.compiler name with _ | i
  · dsimp only
    rcases hgu : getUpvalue s.compiler s.enclosing name with ⟨o, cur, encl⟩
    have hb := getUpvalue_cur_pv s.enclosing s.compiler name
    rw [hgu] at hb
    cases o with
    | none =>
        dsimp only
        rw [identifierConstant_pushedValues]
        exact hb
    | some u => exact hb
  · rfl

theorem namedVariable_get (fuel : Nat) (name : CToken) (ca ci : Bool) (s : ParseState)
    (h1 : s.current.ttype ≠ .TOKEN_EQUAL)
    (h2 : s.current.ttype ≠ .TOKEN_PLUS_PLUS)
    (h3 : s.current.ttype ≠ .TOKEN_MINUS_MINUS) :
    namedVariable (Nat.succ fuel) name ca ci s =
      valuePushed
        (_etterOP (resolveName s name).2.2 (resolveName s name).1.1
          (resolveName s name).2.1) 1 := by
  have hc := resolveName_current s name
  unfold namedVariable
  dsimp only
  rcases hR : resolveName s name with ⟨ops, arg, s1⟩
  rw [hR] at hc
  dsimp only at hc ⊢
  have h1' : ¬ s1.current.ttype = .TOKEN_EQUAL := by rw [hc]; exact h1
  have h2' : ¬ s1.current.ttype = .TOKEN_PLUS_PLUS := by rw [hc]; exact h2
  have h3' : ¬ s1.current.ttype = .TOKEN_MINUS_MINUS := by rw [hc]; exact h3
  rw [matchT_of_check_false s1 .TOKEN_EQUAL h1']
  simp only [ite_self]
  rw [matchT_of_check_false s1 .TOKEN_PLUS_PLUS h2']
  simp only [ite_self]
  rw [matchT_of_check_false s1 .TOKEN_MINUS_MINUS h3']
  simp only [ite_self]
  rfl

theorem namedVariable_postinc (fuel : Nat) (name : CToken) (ca : Bool) (s : ParseState)
    (h : s.current.ttype = .TOKEN_PLUS_PLUS) :
    ∃ op argBytes,
      (op = OP_INCLOCAL ∨ op = OP_INCUPVAL ∨ op = OP_INCGLOBAL) ∧
      ((argBytes : List Int).length = 1 ∨ argBytes.length = 2) ∧
      (namedVariable (Nat.succ fuel) name ca true s).compiler.function.buf
        = s.compiler.function.buf ++ [op, 129] ++ argBytes ∧
      (namedVariable (Nat.succ fuel) name ca true s).compiler.pushedValues
        = s.compiler.pushedValues + 1 := by
  have hc := resolveName_current s name
  have hb := resolveName_buf s name
  have hp := resolveName_pv s name
  have hops := resolveName_ops s name
  unfold namedVariable
  dsimp only
  rcases hR : resolveName s name with ⟨ops, arg, s1⟩
  rw [hR] at hc hb hp hops
  dsimp only at hc hb hp hops ⊢
  have h1' : ¬ s1.current.ttype = .TOKEN_EQUAL := by rw [hc, h]; intro hx; cases hx
  have h2' : s1.current.ttype = .TOKEN_PLUS_PLUS := by rw [hc, h]
  rw [matchT_of_check_false s1 .TOKEN_EQUAL h1']
  simp only [ite_self]
  rw [matchT_of_check_true s1 .TOKEN_PLUS_PLUS h2']
  simp only [eq_self_iff_true, if_true]
  have hadv := advance_compiler s1
  rcases hops with ho | ho | ho <;> rw [ho] <;>
    simp only [Bool.false_eq_true, if_false]
  · rw [if_neg (show ¬ OP_INCLOCAL = OP_INCGLOBAL by decide)]
    refine ⟨OP_INCLOCAL, [arg % 256], Or.inl rfl, Or.inl rfl, ?_, ?_⟩
    · rw [valuePushed_buf, writeu8_buf, writeu8_buf, writeu8_buf, hadv, hb]
      simp [List.append_assoc]
      all_goals decide
    · rw [valuePushed_pushedValues, writeu8_pushedValues, writeu8_pushedValues,
          writeu8_pushedValues, hadv, hp]
  · rw [if_neg (show ¬ OP_INCUPVAL = OP_INCGLOBAL by decide)]
    refine ⟨OP_INCUPVAL, [arg % 256], Or.inr (Or.inl rfl), Or.inl rfl, ?_, ?_⟩
    · rw [valuePushed_buf, writeu8_buf, writeu8_buf, writeu8_buf, hadv, hb]
      simp [List.append_assoc]
      all_goals decide
    · rw [valuePushed_pushedValues, writeu8_pushedValues, writeu8_pushedValues,
          writeu8_pushedValues, hadv, hp]
  · simp only [if_true]
    refine ⟨OP_INCGLOBAL, [arg % 65536 % 256, arg % 65536 / 256],
      Or.inr (Or.inr rfl), Or.inr rfl, ?_, ?_⟩
    · rw [valuePushed_buf, writeu16_buf, writeu8_buf, writeu8_buf, hadv, hb]
      simp [List.append_assoc]
      all_goals decide
    · rw [valuePushed_pushedValues, writeu16_pushedValues, writeu8_pushedValues,
          writeu8_pushedValues, hadv, hp]

theorem writeConstant_buf (s : ParseState) (v : CValue) :
    ∃ kBytes : List Int, kBytes.length = 2 ∧
      (writeConstant s v).compiler.function.buf
        = s.compiler.function.buf ++ [OP_LOADCONST] ++ kBytes := by
  unfold writeConstant
  dsimp only
  have hmb := makeConstant_buf (writeu8 s OP_LOADCONST) v
  rcases hk : makeConstant (writeu8 s OP_LOADCONST) v with ⟨k, sY⟩
  rw [hk] at hmb
  dsimp only at hmb ⊢
  refine ⟨[k % 65536 % 256, k % 65536 / 256], rfl, ?_⟩
  rw [valuePushed_buf, writeu16_buf, hmb, writeu8_buf]
  simp [List.append_assoc]
  all_goals decide

theorem increment_prefix (fuel : Nat) (val : Int) (s : ParseState)
    (h1 : s.current.ttype ≠ .TOKEN_DOT)
    (h2 : s.current.ttype ≠ .TOKEN_LEFT_BRACKET) :
    ∃ (op : Int) (argBytes kBytes : List Int),
      (op = OP_INCLOCAL ∨ op = OP_INCUPVAL ∨ op = OP_INCGLOBAL) ∧
      (argBytes.length = 1 ∨ argBytes.length = 2) ∧
      kBytes.length = 2 ∧
      (increment (Nat.succ fuel) val s).compiler.function.buf
        = s.compiler.function.buf ++ [op, (128 + val) % 256] ++ argBytes
            ++ [OP_LOADCONST] ++ kBytes ++ [OP_ADD] := by
  unfold increment
  dsimp only
  rw [matchT_of_check_false s .TOKEN_DOT h1]
  simp only [Bool.false_eq_true, if_false]
  rw [matchT_of_check_false s .TOKEN_LEFT_BRACKET h2]
  simp only [Bool.false_eq_true, if_false]
  rcases hgl : getLocal s.compiler s.previous with _ | i
  · dsimp only
    rcases hgu : getUpvalue s.compiler s.enclosing s.previous with ⟨o, cur, encl⟩
    have hub := getUpvalue_cur_buf s.enclosing s.compiler s.previous
    rw [hgu] at hub
    dsimp only at hub
    cases o with
    | some u =>
        dsimp only
        rw [if_neg (show ¬ OP_INCUPVAL = OP_INCGLOBAL by decide)]
        have hwc := writeConstant_buf
          (writeu8 (writeu8 (writeu8 { s with compiler := cur, enclosing := encl }
            OP_INCUPVAL) (128 + val)) (u : Int)) (CValue.num val)
        rcases hwc with ⟨kB, hkB, hbuf⟩
        refine ⟨OP_INCUPVAL, [(u : Int) % 256], kB, Or.inr (Or.inl rfl), Or.inl rfl, hkB, ?_⟩
        have hrec : ({ s with compiler := cur, enclosing := encl } :
            ParseState).compiler.function.buf = cur.function.buf := rfl
        rw [writeu8_buf, hbuf, writeu8_buf, writeu8_buf, writeu8_buf, hrec, hub]
        rw [show OP_INCUPVAL % 256 = OP_INCUPVAL by decide,
            show OP_ADD % 256 = OP_ADD by decide]
        simp [List.append_assoc]
    | none =>
        dsimp only
        have hicb := identifierConstant_buf { s with compiler := cur, enclosing := encl }
          s.previous
        rcases hic : identifierConstant { s with compiler := cur, enclosing := encl }
            s.previous with ⟨arg, s2⟩
        rw [hic] at hicb
        dsimp only at hicb ⊢
        rw [if_pos (show OP_INCGLOBAL = OP_INCGLOBAL from rfl)]
        have hwc := writeConstant_buf
          (writeu16 (writeu8 (writeu8 s2 OP_INCGLOBAL) (128 + val)) arg) (CValue.num val)
        rcases hwc with ⟨kB, hkB, hbuf⟩
        refine ⟨OP_INCGLOBAL, [arg % 65536 % 256, arg % 65536 / 256], kB,
          Or.inr (Or.inr rfl), Or.inr rfl, hkB, ?_⟩
        have hrec : ({ s with compiler := cur, enclosing := encl } :
            ParseState).compiler.function.buf = cur.function.buf := rfl
        rw [writeu8_buf, hbuf, writeu16_buf, writeu8_buf, writeu8_buf, hicb, hrec, hub]
        rw [show OP_INCGLOBAL % 256 = OP_INCGLOBAL by decide,
            show OP_ADD % 256 = OP_ADD by decide]
        simp [List.append_assoc]
  · dsimp only
    rw [if_neg (show ¬ OP_INCLOCAL = OP_INCGLOBAL by decide)]
    have hwc := writeConstant_buf
      (writeu8 (writeu8 (writeu8 s OP_INCLOCAL) (128 + val)) (i : Int)) (CValue.num val)
    rcases hwc with ⟨kB, hkB, hbuf⟩
    refine ⟨OP_INCLOCAL, [(i : Int) % 256], kB, Or.inl rfl, Or.inl rfl, hkB, ?_⟩
    rw [writeu8_buf, hbuf, writeu8_buf, writeu8_buf, writeu8_buf]
    rw [show OP_INCLOCAL % 256 = OP_INCLOCAL by decide,
        show OP_ADD % 256 = OP_ADD by decide]
    simp [List.append_assoc]

theorem errorAt_hadError_always (s : ParseState) (t : CToken) (m : String) :
    (errorAt s t m).hadError = true := by
  unfold errorAt
  split
  · next h => exact h
  · rfl

theorem errorP_hadError_always (s : ParseState) (m : String) :
    (errorP s m).hadError = true := errorAt_hadError_always s s.previous m

theorem syncLoop_spec (fuel : Nat) :
    ∀ s : ParseState, s.hadError = true → s.panicMode = false →
      (syncLoop fuel s).panicMode = false ∧
      ((syncLoop fuel s).current.ttype = .TOKEN_EOF ∨
       (syncLoop fuel s).previous.ttype = .TOKEN_EOS ∨
       (syncLoop fuel s).outOfFuel = true) := by
  induction fuel with
  | zero =>
      intro s he hp
      exact ⟨hp, Or.inr (Or.inr rfl)⟩
  | succ fuel ih =>
      intro s he hp
      unfold syncLoop
      split
      · next h => exact ⟨hp, Or.inl h⟩
      · split
        · next _ h => exact ⟨hp, Or.inr (Or.inl h)⟩
        · obtain ⟨he2, hp2⟩ := advance_hadError_panic s he
          exact ih (advance s) he2 (hp2.trans hp)

theorem expressionStatement_pv (fuel : Nat) (s : ParseState) :
    (expressionStatement fuel s).compiler.pushedValues = s.compiler.pushedValues := by
  cases fuel with
  | zero => rfl
  | succ fuel => exact alignStack_pushedValues _ _

theorem endCompiler_buf (s : ParseState) :
    ∃ pre, ((endCompiler s).1).buf = pre ++ [OP_NIL, OP_RETURN, 1] := by
  unfold endCompiler
  dsimp only
  refine ⟨(popLocals s s.compiler.scopeDepth).compiler.function.buf, ?_⟩
  rw [writeu8_buf, writeu8_buf, writeu8_buf]
  rw [show OP_NIL % 256 = OP_NIL by decide, show OP_RETURN % 256 = OP_RETURN by decide,
      show (1 : Int) % 256 = 1 by decide]
  simp [List.append_assoc]

-- ==================== claim theorems ====================

/-- C1: for every token stream (the lexer image of a source string),
`cosmoP_compileString` pushes exactly one value on the VM value stack: the
root closure wrapping the compiled function when the parse reported no
error (and the function is returned), and `nil` when a compile error
occurred (and no function is returned). -/
theorem cosmoP_compileString_single_push (fuel : Nat) (tokens : List CToken)
    (module : String) (st : CState) :
    ((compileParse fuel tokens module).hadError = true →
        (cosmoP_compileString fuel tokens module st).1 = none ∧
        ((cosmoP_compileString fuel tokens module st).2).stack
          = VMValue.nil :: st.stack) ∧
    ((compileParse fuel tokens module).hadError = false →
        ∃ f, (cosmoP_compileString fuel tokens module st).1 = some f ∧
          ((cosmoP_compileString fuel tokens module st).2).stack
            = VMValue.closure f :: st.stack) := by
  constructor <;> intro h <;>
    simp [cosmoP_compileString, h, cosmoM_freezeGC, cosmoM_unfreezeGC, cosmoV_pushValue]

/-- witness for C1: a failing stream (`return` at script level) pushes
`nil` and returns no function; the empty program pushes a closure and
returns its function. -/
theorem cosmoP_compileString_single_push_witness :
    (compileParse 20 [tok .TOKEN_RETURN, tok .TOKEN_EOF] "m").hadError = true ∧
    (cosmoP_compileString 20 [tok .TOKEN_RETURN, tok .TOKEN_EOF] "m" st0).1 = none ∧
    ((cosmoP_compileString 20 [tok .TOKEN_RETURN, tok .TOKEN_EOF] "m" st0).2).stack
      = [VMValue.nil] ∧
    (compileParse 20 [tok .TOKEN_EOF] "m").hadError = false ∧
    ∃ f, (cosmoP_compileString 20 [tok .TOKEN_EOF] "m" st0).1 = some f ∧
      ((cosmoP_compileString 20 [tok .TOKEN_EOF] "m" st0).2).stack
        = [VMValue.closure f] := by
  have h1 : (compileParse 20 [tok .TOKEN_RETURN, tok .TOKEN_EOF] "m").hadError = true := by
    decide
  have h2 : (compileParse 20 [tok .TOKEN_EOF] "m").hadError = false := by decide
  obtain ⟨ha, hb⟩ :=
    (cosmoP_compileString_single_push 20 [tok .TOKEN_RETURN, tok .TOKEN_EOF] "m" st0).1 h1
  obtain ⟨f, hc, hd⟩ :=
    (cosmoP_compileString_single_push 20 [tok .TOKEN_EOF] "m" st0).2 h2
  exact ⟨h1, ha, hb.trans rfl, h2, f, hc, hd.trans rfl⟩

/-- C2: a statement compiled without a compile error leaves the compiler's
`pushedValues` counter exactly where it found it — `expressionStatement`
saves the counter and its final `alignStack` restores it (emitting pops
for surplus values, an error for missing ones). -/
theorem cosmo_statement_stack_neutral (fuel : Nat) (s : ParseState)
    (_h : (expressionStatement fuel s).hadError = false) :
    (expressionStatement fuel s).compiler.pushedValues = s.compiler.pushedValues := by
  exact expressionStatement_pv fuel s

/-- witness for C2: the statement `nil` compiles without error and leaves
`pushedValues` at its initial 0. -/
theorem cosmo_statement_stack_neutral_witness :
    (expressionStatement 20 witExprState).hadError = false ∧
    (expressionStatement 20 witExprState).compiler.pushedValues
      = witExprState.compiler.pushedValues := by
  have h : (expressionStatement 20 witExprState).hadError = false := by decide
  exact ⟨h, cosmo_statement_stack_neutral 20 witExprState h⟩

set_option maxRecDepth 8192 in
/-- C3 (code bug): with the 256-entry upvalue array already full,
`addUpvalue` raises no compile error — it has no error path at all, only a
`TODO` comment — and writes the fresh descriptor at index 256, one past
the end of `Upvalue upvalues[256]`, bumping the count to 257. -/
theorem cosmo_addUpvalue_unchecked_overflow :
    (addUpvalue overflowFrame 1 true).1 = upvalueCapacity ∧
    ¬ (addUpvalue overflowFrame 1 true).1 < upvalueCapacity ∧
    ((addUpvalue overflowFrame 1 true).2).upvalues.length = upvalueCapacity + 1 ∧
    ((addUpvalue overflowFrame 1 true).2).function.upvals = upvalueCapacity + 1 := by
  decide

/-- C9: `cosmoP_compileString` leaves the GC freeze counter exactly where
it found it: the counter is incremented once before parsing and
decremented exactly once before returning, on the error path and the
success path alike (the parse phase itself, `compileParse`, has no access
to the `CState` at all). -/
theorem cosmo_compileString_gc_freeze (fuel : Nat) (tokens : List CToken)
    (module : String) (st : CState) :
    ((cosmoP_compileString fuel tokens module st).2).freezeGC = st.freezeGC ∧
    (cosmoM_freezeGC st).freezeGC = st.freezeGC + 1 ∧
    (cosmoM_unfreezeGC (cosmoM_freezeGC st)).freezeGC = st.freezeGC := by
  refine ⟨?_, rfl, by simp [cosmoM_freezeGC, cosmoM_unfreezeGC]⟩
  unfold cosmoP_compileString
  dsimp only
  split <;> simp [cosmoM_freezeGC, cosmoM_unfreezeGC, cosmoV_pushValue]

/-- C10: every compiled function body is terminated by `endCompiler` with
the byte sequence `OP_NIL; OP_RETURN; 1`, and in particular the root
function returned by a successful `cosmoP_compileString` ends with it, so
a call that falls off the end of a body returns the single value `nil`. -/
theorem cosmo_body_terminator :
    (∀ s : ParseState, ∃ pre, ((endCompiler s).1).buf = pre ++ [OP_NIL, OP_RETURN, 1]) ∧
    (∀ (fuel : Nat) (tokens : List CToken) (module : String) (st : CState)
        (f : CObjFunction),
      (cosmoP_compileString fuel tokens module st).1 = some f →
      ∃ pre, f.buf = pre ++ [OP_NIL, OP_RETURN, 1]) := by
  refine ⟨endCompiler_buf, ?_⟩
  intro fuel tokens module st f h
  unfold cosmoP_compileString at h
  dsimp only at h
  split at h
  · exact absurd h (by simp)
  · simp only [Option.some.injEq] at h
    rw [← h]
    exact endCompiler_buf _

/-- witness for C10: the empty program compiles successfully and its root
function's bytecode ends in `OP_NIL; OP_RETURN; 1`. -/
theorem cosmo_body_terminator_witness :
    ∃ f pre, (cosmoP_compileString 20 [tok .TOKEN_EOF] "m" st0).1 = some f ∧
      f.buf = pre ++ [OP_NIL, OP_RETURN, 1] := by
  have h : (cosmoP_compileString 20 [tok .TOKEN_EOF] "m" st0).1
      = some ((endCompiler (compileParse 20 [tok .TOKEN_EOF] "m")).1) := rfl
  obtain ⟨pre, hp⟩ := cosmo_body_terminator.2 20 [tok .TOKEN_EOF] "m" st0 _ h
  exact ⟨_, pre, h, hp⟩

/-- C4 counterexample: the claim's recovery story fails on the code.
(1) A program with two erroring statements (`return; return` at script
level) produces exactly one diagnostic — the second statement's error is
swallowed even though the first statement's panic was cleared at the `;`,
because `errorAt` early-returns whenever `hadError` is set and `hadError`
is never cleared.  (2) `synchronize` does not stop at an `end` token (the
claim lists `end`/`else`/`elseif` among the terminators): started on
`end`, it skips past it (and the following identifier) all the way to
EOF.  (3) After recovery, a further `errorAt` is a no-op. -/
theorem cosmo_panic_recovery_cex :
    (compileParse 30 [tok .TOKEN_RETURN, tok .TOKEN_EOS, tok .TOKEN_RETURN, tok .TOKEN_EOF]
        "m").errors = ["Expected return in function!"] ∧
    (synchronize 10 syncProbeState).current.ttype = .TOKEN_EOF ∧
    errorAt postPanicState (tok .TOKEN_RETURN) "Expected return in function!"
      = postPanicState := by
  refine ⟨by decide, by decide, rfl⟩

/-- C4 amended: `errorAt` reports a diagnostic, setting `hadError` and
`panic`, only when `hadError` is not yet set; once it is set every later
report in the same compilation is suppressed (`hadError` is never
cleared), so at most one error is reported per compilation, not per
statement.  `synchronize` clears only the panic flag and skips tokens
until just past a `;` or until EOF (never stopping at
`end`/`else`/`elseif`). -/
theorem cosmo_panic_recovery_amended (s : ParseState) (t : CToken) (msg : String)
    (fuel : Nat) :
    (s.hadError = false → errorAt s t msg
        = { s with errors := s.errors ++ [msg], hadError := true, panicMode := true }) ∧
    (s.hadError = true → errorAt s t msg = s) ∧
    (s.hadError = true →
        (synchronize fuel s).panicMode = false ∧
        ((synchronize fuel s).current.ttype = .TOKEN_EOF ∨
         (synchronize fuel s).previous.ttype = .TOKEN_EOS ∨
         (synchronize fuel s).outOfFuel = true)) := by
  refine ⟨?_, ?_, ?_⟩
  · intro h
    unfold errorAt
    rw [if_neg (by rw [h]; intro hx; cases hx)]
  · intro h
    exact errorAt_of_hadError s t msg h
  · intro h
    unfold synchronize
    exact syncLoop_spec fuel _ h rfl

/-- witness for C4's amended theorem: a fresh parser records the message
and raises both flags; `postPanicState` swallows it; synchronising
`syncProbeState` ends non-panicked at EOF. -/
theorem cosmo_panic_recovery_amended_witness :
    errorAt (initParseState [] "m") (tok .TOKEN_RETURN) "msg"
      = ({ initParseState [] "m" with errors := ["msg"], hadError := true, panicMode := true } : ParseState) ∧
    errorAt postPanicState (tok .TOKEN_RETURN) "msg" = postPanicState ∧
    (synchronize 10 syncProbeState).panicMode = false := by
  have h1 := (cosmo_panic_recovery_amended (initParseState [] "m")
    (tok .TOKEN_RETURN) "msg" 10).1 (by decide)
  have h2 := (cosmo_panic_recovery_amended postPanicState
    (tok .TOKEN_RETURN) "msg" 10).2.1 (by decide)
  have h3 := (cosmo_panic_recovery_amended syncProbeState
    (tok .TOKEN_RETURN) "msg" 10).2.2 (by decide)
  exact ⟨h1.trans rfl, h2, h3.1⟩

/-- C8: `makeConstant` hands back the pool index as a `uint16_t` while it
still fits (the pool growing by the new value, `addConstant` modelled from
the spec), and adding a constant whose index would exceed 65535 — the
65537th — raises a compile error and returns index 0. -/
theorem cosmo_makeConstant_limit (s : ParseState) (val : CValue) :
    (s.compiler.function.consts.length ≤ 65535 →
        makeConstant s val
          = ((s.compiler.function.consts.length : Int),
             modifyFunction s (fun f => f.withConsts (s.compiler.function.consts ++ [val])))) ∧
    (65535 < s.compiler.function.consts.length →
        (makeConstant s val).1 = 0 ∧ ((makeConstant s val).2).hadError = true) := by
  constructor <;> intro h <;> unfold makeConstant addConstant <;> dsimp only
  · rw [if_neg (by omega)]
  · rw [if_pos (by omega)]
    exact ⟨rfl, errorP_hadError_always _ _⟩

/-- witness for C8: an empty pool accepts a constant at index 0; a pool
holding 65 536 constants rejects the 65 537th with an error and index 0. -/
theorem cosmo_makeConstant_limit_witness :
    makeConstant (initParseState [] "m") CValue.nil
      = (((initParseState [] "m").compiler.function.consts.length : Int),
         modifyFunction (initParseState [] "m")
           (fun f => f.withConsts ((initParseState [] "m").compiler.function.consts
             ++ [CValue.nil]))) ∧
    (makeConstant fullConstState CValue.nil).1 = 0 ∧
    ((makeConstant fullConstState CValue.nil).2).hadError = true := by
  have hlen : fullConstState.compiler.function.consts = List.replicate 65536 CValue.nil := rfl
  have h1 := (cosmo_makeConstant_limit (initParseState [] "m") CValue.nil).1 (by decide)
  have h2 := (cosmo_makeConstant_limit fullConstState CValue.nil).2
    (by rw [hlen, List.length_replicate]; norm_num)
  exact ⟨h1, h2⟩

/-- C5: identifier resolution order.  (1)/(2) `getLocal` returns the
innermost initialised local matching the name — the greatest matching
index below `localCount` — or none when no local matches.  (3) a local of
the immediate enclosing compiler is marked captured there and captured
into this function with `isLocal = true`; (4) a name that resolves to an
upvalue deeper in the chain is chained through with `isLocal = false`.
(5)-(7) `namedVariable`'s opcode selection follows exactly this cascade:
locals get the `GETLOCAL/SETLOCAL/INCLOCAL` family, enclosing-chain hits
the `GETUPVAL/SETUPVAL/INCUPVAL` family, and everything else becomes a
name constant with the `GETGLOBAL/SETGLOBAL/INCGLOBAL` family.  (8) in
the plain-read case the selected get opcode and operand are emitted. -/
theorem cosmo_name_resolution_order :
    (∀ (c : Frame) (name : CToken) (i : Nat), getLocal c name = some i →
        i < c.localCount ∧ localMatches c.locals name i ∧
          ∀ j, i < j → j < c.localCount → ¬ localMatches c.locals name j) ∧
    (∀ (c : Frame) (name : CToken), getLocal c name = none →
        ∀ j, j < c.localCount → ¬ localMatches c.locals name j) ∧
    (∀ (cur e : Frame) (rest : List Frame) (name : CToken) (i : Nat),
        getLocal e name = some i →
        getUpvalue cur (e :: rest) name
          = (some (addUpvalue cur (i % 256) true).1, (addUpvalue cur (i % 256) true).2,
              markCaptured e i :: rest)) ∧
    (∀ (cur e : Frame) (rest : List Frame) (name : CToken) (u : Nat)
        (e2 : Frame) (rest2 : List Frame),
        getLocal e name = none → getUpvalue e rest name = (some u, e2, rest2) →
        getUpvalue cur (e :: rest) name
          = (some (addUpvalue cur (u % 256) false).1, (addUpvalue cur (u % 256) false).2,
              e2 :: rest2)) ∧
    (∀ (s : ParseState) (name : CToken) (i : Nat), getLocal s.compiler name = some i →
        resolveName s name = ((OP_GETLOCAL, OP_SETLOCAL, OP_INCLOCAL), (i : Int), s)) ∧
    (∀ (s : ParseState) (name : CToken) (i : Nat) (cur : Frame) (encl : List Frame),
        getLocal s.compiler name = none →
        getUpvalue s.compiler s.enclosing name = (some i, cur, encl) →
        resolveName s name = ((OP_GETUPVAL, OP_SETUPVAL, OP_INCUPVAL), (i : Int),
          { s with compiler := cur, enclosing := encl })) ∧
    (∀ (s : ParseState) (name : CToken) (cur : Frame) (encl : List Frame),
        getLocal s.compiler name = none →
        getUpvalue s.compiler s.enclosing name = (none, cur, encl) →
        resolveName s name = ((OP_GETGLOBAL, OP_SETGLOBAL, OP_INCGLOBAL),
          (identifierConstant { s with compiler := cur, enclosing := encl } name).1,
          (identifierConstant { s with compiler := cur, enclosing := encl } name).2)) ∧
    (∀ (fuel : Nat) (name : CToken) (ca ci : Bool) (s : ParseState),
        s.current.ttype ≠ .TOKEN_EQUAL → s.current.ttype ≠ .TOKEN_PLUS_PLUS →
        s.current.ttype ≠ .TOKEN_MINUS_MINUS →
        namedVariable (Nat.succ fuel) name ca ci s =
          valuePushed (_etterOP (resolveName s name).2.2 (resolveName s name).1.1
            (resolveName s name).2.1) 1) := by
  refine ⟨?_, ?_, getUpvalue_found_local, ?_, resolveName_local, resolveName_upval,
    resolveName_global, namedVariable_get⟩
  · intro c name i h
    exact getLocalAux_some c.locals name c.localCount i h
  · intro c name h
    exact getLocalAux_none c.locals name c.localCount h
  · intro cur e rest name u e2 rest2 h h2
    exact getUpvalue_chained_some cur e rest name u e2 rest2 h h2

/-- witness for C5: in a frame declaring `x` twice the innermost slot 1
wins; an empty frame resolves nothing; capturing the local of an enclosing
frame marks it captured with `isLocal = true`; resolution in `wResState`
selects the local opcode family; and the plain-read case emits through
`_etterOP` of the resolved triple. -/
theorem cosmo_name_resolution_order_witness :
    (1 < wFrame.localCount ∧ localMatches wFrame.locals (identTok "x") 1 ∧
      ∀ j, 1 < j → j < wFrame.localCount → ¬ localMatches wFrame.locals (identTok "x") j) ∧
    (∀ j, j < dummyFrame.localCount → ¬ localMatches dummyFrame.locals (identTok "x") j) ∧
    getUpvalue dummyFrame [wFrame] (identTok "x")
      = (some (addUpvalue dummyFrame (1 % 256) true).1,
         (addUpvalue dummyFrame (1 % 256) true).2, [markCaptured wFrame 1]) ∧
    resolveName wResState (identTok "x")
      = ((OP_GETLOCAL, OP_SETLOCAL, OP_INCLOCAL), (1 : Int), wResState) ∧
    namedVariable 4 (identTok "x") true true wPreState =
      valuePushed (_etterOP (resolveName wPreState (identTok "x")).2.2
        (resolveName wPreState (identTok "x")).1.1
        (resolveName wPreState (identTok "x")).2.1) 1 := by
  refine ⟨cosmo_name_resolution_order.1 wFrame (identTok "x") 1 (by decide),
    cosmo_name_resolution_order.2.1 dummyFrame (identTok "x") (by decide),
    cosmo_name_resolution_order.2.2.1 dummyFrame wFrame [] (identTok "x") 1 (by decide),
    cosmo_name_resolution_order.2.2.2.2.1 wResState (identTok "x") 1 (by decide),
    cosmo_name_resolution_order.2.2.2.2.2.2.2 3 (identTok "x") true true wPreState
      (by decide) (by decide) (by decide)⟩

/-- C6: value distribution in `var`/`local` declarations.  (1) `expression`
reports exactly the net change it made to `pushedValues` and (2) never
leaves more than the `needed` values above the entry balance — the surplus
is popped inside `expression` (this is where excess right-hand-side values
die).  (3) the assignment loop of `varDeclaration` therefore accounts for
`e - e'` values when it still expects `e'` of the `e` requested, with
`e' ≥ 0`, and (4) the trailing pad emits exactly the `e'` missing values
as `OP_NIL`s.  (5) in total, a `var` declaration whose parsed name is
followed by `=` and that compiles without error nets exactly one value
per declared name (`+ k` balances the `k` names still pending plus this
one after `defineVariable` accounts its own). -/
theorem cosmo_varDecl_distribution :
    (∀ (fuel : Nat) (needed : Int) (force : Bool) (s : ParseState),
        (expression fuel needed force s).1
          = ((expression fuel needed force s).2).compiler.pushedValues
              - s.compiler.pushedValues) ∧
    (∀ (fuel : Nat) (needed : Int) (force : Bool) (s : ParseState), 0 ≤ needed →
        ((expression fuel needed force s).2).compiler.pushedValues
          ≤ s.compiler.pushedValues + needed) ∧
    (∀ (fuel : Nat) (e : Int) (s : ParseState), 0 ≤ e →
        0 ≤ (varDeclAssignLoop fuel e s).1 ∧
        ((varDeclAssignLoop fuel e s).2).compiler.pushedValues
          = s.compiler.pushedValues + (e - (varDeclAssignLoop fuel e s).1)) ∧
    (∀ (e : Int) (s : ParseState), 0 ≤ e →
        (varDeclNilPad e s).compiler.pushedValues = s.compiler.pushedValues + e ∧
        (varDeclNilPad e s).compiler.function.buf
          = s.compiler.function.buf ++ List.replicate e.toNat OP_NIL) ∧
    (∀ (fuel : Nat) (fl : Bool) (k : Int) (s : ParseState), 0 ≤ k →
        s.current.ttype = .TOKEN_IDENTIFIER →
        (s.tokens.headD eofToken).ttype = .TOKEN_EQUAL →
        (varDeclaration (Nat.succ fuel) fl k s).hadError = false →
        (varDeclaration (Nat.succ fuel) fl k s).compiler.pushedValues
          = s.compiler.pushedValues + k) := by
  refine ⟨expression_delta, expression_le, varDeclAssignLoop_spec, ?_,
    varDeclaration_assign_pv⟩
  intro e s he
  constructor
  · rw [varDeclNilPad, nilPadAux_pushedValues, Int.toNat_of_nonneg he]
  · rw [varDeclNilPad, nilPadAux_buf]

/-- witness for C6: `var x = nil` (already primed on the identifier)
compiles without error and nets zero on `pushedValues`; the assignment
loop and the nil pad satisfy their accounting on a concrete state. -/
theorem cosmo_varDecl_distribution_witness :
    ((varDeclaration 20 false 0 witVarState).compiler.pushedValues
        = witVarState.compiler.pushedValues + 0) ∧
    (0 ≤ (varDeclAssignLoop 10 1 witExprState).1 ∧
      ((varDeclAssignLoop 10 1 witExprState).2).compiler.pushedValues
        = witExprState.compiler.pushedValues + (1 - (varDeclAssignLoop 10 1 witExprState).1)) ∧
    ((varDeclNilPad 2 witExprState).compiler.pushedValues
        = witExprState.compiler.pushedValues + 2 ∧
      (varDeclNilPad 2 witExprState).compiler.function.buf
        = witExprState.compiler.function.buf ++ List.replicate (2 : Int).toNat OP_NIL) := by
  refine ⟨cosmo_varDecl_distribution.2.2.2.2 19 false 0 witVarState (by decide) (by decide)
      (by decide) (by decide),
    cosmo_varDecl_distribution.2.2.1 10 1 witExprState (by decide),
    cosmo_varDecl_distribution.2.2.2.1 2 witExprState (by decide)⟩

/-- C7 counterexample: at the statement `x++` (postfix) the emitted code is
the single `INCGLOBAL` instruction with biased delta 129 plus the
statement's final pop — no `LOADCONST`/`ADD` pair appears, contradicting
the claim that the postfix form re-pushes the old value with an explicit
`load delta; add`.  At `++x` (prefix) the code does contain
`LOADCONST; ADD` after the `INCGLOBAL`, contradicting the claim that the
prefix form emits only the `INC*` instruction. -/
theorem cosmo_increment_forms_cex :
    (compileParse 30 [identTok "x", tok .TOKEN_PLUS_PLUS, tok .TOKEN_EOF]
        "m").compiler.function.buf
      = [OP_INCGLOBAL, 129, 0, 0, OP_POP, 1] ∧
    OP_ADD ∉ (compileParse 30 [identTok "x", tok .TOKEN_PLUS_PLUS, tok .TOKEN_EOF]
        "m").compiler.function.buf ∧
    (compileParse 30 [tok .TOKEN_PLUS_PLUS, identTok "x", tok .TOKEN_EOF]
        "m").compiler.function.buf
      = [OP_INCGLOBAL, 129, 0, 0, OP_LOADCONST, 1, 0, OP_ADD, OP_POP, 1] ∧
    OP_ADD ∈ (compileParse 30 [tok .TOKEN_PLUS_PLUS, identTok "x", tok .TOKEN_EOF]
        "m").compiler.function.buf := by
  refine ⟨by decide, by decide, by decide, by decide⟩

/-- C7 amended: both increment forms emit a single `INC*` instruction whose
delta operand is biased as `128 + delta`; it is the *prefix* form
(`increment`) that additionally emits `LOADCONST delta; OP_ADD` to turn
the pre-increment value the `INC*` instruction pushes into the
post-increment value, while the postfix form emits only the `INC*`
instruction. -/
theorem cosmo_increment_forms_amended :
    (∀ (fuel : Nat) (name : CToken) (ca : Bool) (s : ParseState),
        s.current.ttype = .TOKEN_PLUS_PLUS →
        ∃ op argBytes,
          (op = OP_INCLOCAL ∨ op = OP_INCUPVAL ∨ op = OP_INCGLOBAL) ∧
          ((argBytes : List Int).length = 1 ∨ argBytes.length = 2) ∧
          (namedVariable (Nat.succ fuel) name ca true s).compiler.function.buf
            = s.compiler.function.buf ++ [op, 129] ++ argBytes ∧
          (namedVariable (Nat.succ fuel) name ca true s).compiler.pushedValues
            = s.compiler.pushedValues + 1) ∧
    (∀ (fuel : Nat) (val : Int) (s : ParseState),
        s.current.ttype ≠ .TOKEN_DOT → s.current.ttype ≠ .TOKEN_LEFT_BRACKET →
        ∃ (op : Int) (argBytes kBytes : List Int),
          (op = OP_INCLOCAL ∨ op = OP_INCUPVAL ∨ op = OP_INCGLOBAL) ∧
          (argBytes.length = 1 ∨ argBytes.length = 2) ∧
          kBytes.length = 2 ∧
          (increment (Nat.succ fuel) val s).compiler.function.buf
            = s.compiler.function.buf ++ [op, (128 + val) % 256] ++ argBytes
                ++ [OP_LOADCONST] ++ kBytes ++ [OP_ADD]) :=
  ⟨namedVariable_postinc, increment_prefix⟩

/-- witness for C7's amended theorem: postfix after `x` with `++` pending,
and prefix `++x` with the identifier consumed, both at global
resolution. -/
theorem cosmo_increment_forms_amended_witness :
    (∃ op argBytes,
      (op = OP_INCLOCAL ∨ op = OP_INCUPVAL ∨ op = OP_INCGLOBAL) ∧
      ((argBytes : List Int).length = 1 ∨ argBytes.length = 2) ∧
      (namedVariable 4 (identTok "x") true true wPostState).compiler.function.buf
        = wPostState.compiler.function.buf ++ [op, 129] ++ argBytes ∧
      (namedVariable 4 (identTok "x") true true wPostState).compiler.pushedValues
        = wPostState.compiler.pushedValues + 1) ∧
    (∃ (op : Int) (argBytes kBytes : List Int),
      (op = OP_INCLOCAL ∨ op = OP_INCUPVAL ∨ op = OP_INCGLOBAL) ∧
      (argBytes.length = 1 ∨ argBytes.length = 2) ∧
      kBytes.length = 2 ∧
      (increment 4 1 wPreState).compiler.function.buf
        = wPreState.compiler.function.buf ++ [op, (128 + 1) % 256] ++ argBytes
            ++ [OP_LOADCONST] ++ kBytes ++ [OP_ADD]) :=
  ⟨cosmo_increment_forms_amended.1 3 (identTok "x") true wPostState rfl,
   cosmo_increment_forms_amended.2 3 1 wPreState (by decide) (by decide)⟩
